import Mathlib

/-!
# Lumina API — verification of the image-processing / auth / works backend

A shallow embedding of the Python backend under `app/`.  Rows of the
relational store (`app/models/*.py`) become Lean structures, the SQLAlchemy
session becomes an explicit `DB` value threaded through the service
functions, and `datetime.utcnow()` becomes an explicit `now : Nat`
parameter (seconds).  String primary keys produced by `uuid.uuid4()` are
modelled as naturals drawn from a fresh counter `DB.nextId` (uuid
collision-freedom).  External collaborators (OSS storage, the AI vision
service, JWT signing, the SMS gateway) are modelled by deterministic
functions or, for the AI service, by an explicit outcome parameter, as the
code only observes their results.
-/

namespace Lumina

/-- `TaskStatus` enum of `app/models/image.py`. -/
inductive TaskStatus where
  | pending
  | processing
  | completed
  | failed
  deriving DecidableEq, Repr

/-- The `.value` of a `TaskStatus` member (`str` enum). -/
def TaskStatus.value : TaskStatus → String
  | .pending => "pending"
  | .processing => "processing"
  | .completed => "completed"
  | .failed => "failed"

/-- `ImageFormat` enum of `app/models/image.py`. -/
inductive ImageFormat where
  | jpg
  | png
  | webp
  deriving DecidableEq, Repr

/-- The `.value` of an `ImageFormat` member. -/
def ImageFormat.value : ImageFormat → String
  | .jpg => "jpg"
  | .png => "png"
  | .webp => "webp"

/-- `OperationType` enum of `app/schemas/image.py`. -/
inductive OperationType where
  | cutout
  | background
  | lighting
  | filter
  | resize
  deriving DecidableEq, Repr

/-- `SceneType` enum of `app/schemas/image.py`. -/
inductive SceneType where
  | taobao
  | douyin
  | xiaohongshu
  | amazon
  | custom
  deriving DecidableEq, Repr

/-- The `.value` of a `SceneType` member. -/
def SceneType.value : SceneType → String
  | .taobao => "taobao"
  | .douyin => "douyin"
  | .xiaohongshu => "xiaohongshu"
  | .amazon => "amazon"
  | .custom => "custom"

/-- `MembershipType` enum of `app/models/user.py`. -/
inductive MembershipType where
  | free
  | monthly
  | annual
  | enterprise
  deriving DecidableEq, Repr

/-- The `.value` of a `MembershipType` member. -/
def MembershipType.value : MembershipType → String
  | .free => "free"
  | .monthly => "monthly"
  | .annual => "annual"
  | .enterprise => "enterprise"

/-- `ImageOperation` of `app/schemas/image.py`: an operation type with a
JSON parameter object, the latter modelled as a key/value list. -/
structure ImageOperation where
  type : OperationType
  params : List (String × String) := []
  deriving DecidableEq, Repr

/-- A row of the `users` table (`app/models/user.py`). -/
structure User where
  id : Nat
  phone_number : Option String := none
  nickname : Option String := none
  avatar : Option String := none
  is_pro : Bool := false
  membership_type : MembershipType := .free
  membership_expiry : Option Nat := none
  wechat_openid : Option String := none
  is_guest : Bool := false
  created_at : Nat := 0
  deriving DecidableEq, Repr

/-- A row of the `verification_codes` table (`app/models/user.py`). -/
structure VerificationCode where
  id : Nat
  phone_number : String
  code : String
  expires_at : Nat
  created_at : Nat := 0
  used : Bool := false
  deriving DecidableEq, Repr

/-- A row of the `images` table (`app/models/image.py`). -/
structure Image where
  id : Nat
  user_id : Nat
  filename : String
  url : String
  thumbnail : Option String := none
  width : Nat
  height : Nat
  size : Nat
  format : ImageFormat
  uploaded_at : Nat
  deriving DecidableEq, Repr

/-- A row of the `process_tasks` table (`app/models/image.py`). -/
structure ProcessTask where
  id : Nat
  user_id : Nat
  image_id : Nat
  status : TaskStatus := .pending
  progress : Nat := 0
  operations : List ImageOperation
  result_image_id : Option Nat := none
  output_size : Option String := none
  quality : Nat := 85
  edge_smoothing : Bool := true
  scene_type : Option String := none
  error_message : Option String := none
  processing_time : Option Nat := none
  created_at : Nat
  completed_at : Option Nat := none
  deriving DecidableEq, Repr

/-- A row of the `works` table (`app/models/work.py`). -/
structure Work where
  id : Nat
  user_id : Nat
  processed_image_id : Nat
  filename : String
  category : Option SceneType := none
  tags : List String := []
  size : Nat
  created_at : Nat
  deriving DecidableEq, Repr

/-- The relational store: one list per table, plus the fresh-id counter
that models `uuid.uuid4()` / autoincrement key generation. -/
structure DB where
  users : List User := []
  images : List Image := []
  tasks : List ProcessTask := []
  works : List Work := []
  codes : List VerificationCode := []
  nextId : Nat := 0
  deriving DecidableEq, Repr

/-! ## Errors (`app/exceptions.py`, handler in `app/main.py`) -/

/-- The `LuminaException` hierarchy of `app/exceptions.py`: each concrete
subclass fixes an HTTP status and an error code and carries a message. -/
inductive LuminaError where
  | badRequest (message : String)
  | unauthorized (message : String)
  | notFound (message : String)
  | tooManyRequests (message : String)
  | internal (message : String)
  deriving DecidableEq, Repr

/-- The HTTP status code each `LuminaException` subclass passes to its
constructor. -/
def LuminaError.status_code : LuminaError → Nat
  | .badRequest _ => 400
  | .unauthorized _ => 401
  | .notFound _ => 404
  | .tooManyRequests _ => 429
  | .internal _ => 500

/-- The `error_code` string each subclass fixes. -/
def LuminaError.error_code : LuminaError → String
  | .badRequest _ => "INVALID_REQUEST"
  | .unauthorized _ => "UNAUTHORIZED"
  | .notFound _ => "NOT_FOUND"
  | .tooManyRequests _ => "TOO_MANY_REQUESTS"
  | .internal _ => "INTERNAL_ERROR"

/-- The message carried by the exception (`detail`). -/
def LuminaError.message : LuminaError → String
  | .badRequest m => m
  | .unauthorized m => m
  | .notFound m => m
  | .tooManyRequests m => m
  | .internal m => m

/-- `ErrorDetail` of `app/schemas/common.py`: the body of the uniform
error envelope. `details` is a JSON object, modelled as a key/value list
(the service raise sites all leave it empty). -/
structure ErrorDetail where
  code : String
  message : String
  details : List (String × String) := []
  deriving DecidableEq, Repr

/-- `ErrorResponse` of `app/schemas/common.py`: the uniform envelope
`\x7b"error": \x7b"code", "message", "details"\x7d\x7d`. -/
structure ErrorResponse where
  error : ErrorDetail
  deriving DecidableEq, Repr

/-- `lumina_exception_handler` of `app/main.py`: renders a
`LuminaException` as its status code and the uniform JSON envelope. -/
def lumina_exception_handler (exc : LuminaError) : Nat × ErrorResponse :=
  (exc.status_code, ⟨⟨exc.error_code, exc.message, []⟩⟩)

/-- Result of a service call: either a `LuminaException` paired with the
database as committed at the raise point, or a response paired with the
database after the call's commits. -/
abbrev ApiResult (α : Type) := Except (LuminaError × DB) (α × DB)

/-! ## JWT and SMS collaborators -/

/-- `create_access_token` of `app/utils/jwt.py`, signing modelled as
tagging: the code only threads the token value through. -/
def create_access_token (sub : Nat) : String :=
  "access_" ++ toString sub

/-- `create_refresh_token` of `app/utils/jwt.py`, modelled likewise. -/
def create_refresh_token (sub : Nat) : String :=
  "refresh_" ++ toString sub

/-- `settings.sms_mock_code` (`app/config.py`): the fixed code stored in
mock mode, which is the default configuration. -/
def sms_mock_code : String := "123456"

/-- `send_verification_code` of `app/utils/sms.py` (mock mode, the
default): stores a fresh `VerificationCode` row for `phone_number` with
the fixed mock code, expiring five minutes out, and returns
`(code, expires_in)`. -/
def send_verification_code (phone_number : String) (now : Nat) (db : DB) :
    (String × Nat) × DB :=
  let code := sms_mock_code
  let expires_at := now + 5 * 60
  let row : VerificationCode :=
    { id := db.nextId, phone_number := phone_number, code := code
      expires_at := expires_at, created_at := now, used := false }
  ((code, expires_at - now), { db with codes := db.codes ++ [row], nextId := db.nextId + 1 })

/-- The filter of `verify_code` (`app/utils/sms.py`): the first stored row
for this phone with this code that is unused and unexpired. -/
def findVerification? (phone_number code : String) (now : Nat)
    (codes : List VerificationCode) : Option VerificationCode :=
  codes.find? fun v =>
    v.phone_number == phone_number && v.code == code && v.used == false && now < v.expires_at

/-- Setting `verification.used = True` on the found row and committing. -/
def markUsed (vid : Nat) (codes : List VerificationCode) : List VerificationCode :=
  codes.map fun v => if v.id == vid then { v with used := true } else v

/-- `verify_code` of `app/utils/sms.py`: find a matching unused unexpired
row; if found mark it used and return `True`, else return `False`. -/
def verify_code (phone_number code : String) (now : Nat) (db : DB) : Bool × DB :=
  match findVerification? phone_number code now db.codes with
  | some v => (true, { db with codes := markUsed v.id db.codes })
  | none => (false, db)

/-! ## Auth service (`app/services/auth_service.py`) -/

/-- `UserProfile` of `app/schemas/user.py` as built by the auth service. -/
structure UserProfile where
  id : Nat
  phoneNumber : Option String
  nickname : Option String
  avatar : Option String
  isPro : Bool
  membershipType : String
  membershipExpiry : Option Nat
  createdAt : Nat
  deriving DecidableEq, Repr

/-- The `UserProfile(...)` construction used in `login_with_phone`. -/
def userProfileOf (u : User) : UserProfile :=
  { id := u.id, phoneNumber := u.phone_number, nickname := u.nickname
    avatar := u.avatar, isPro := u.is_pro
    membershipType := u.membership_type.value
    membershipExpiry := u.membership_expiry, createdAt := u.created_at }

/-- `LoginResponse` of `app/schemas/auth.py`. -/
structure LoginResponse where
  token : String
  refreshToken : String
  user : UserProfile
  isNewUser : Bool
  expiresIn : Nat
  deriving DecidableEq, Repr

/-- The `LoginResponse(...)` construction of `login_with_phone`. -/
def mkLoginResponse (u : User) (is_new_user : Bool) : LoginResponse :=
  { token := create_access_token u.id
    refreshToken := create_refresh_token u.id
    user := userProfileOf u
    isNewUser := is_new_user
    expiresIn := 7200 }

/-- `login_with_phone` of `app/services/auth_service.py`: verify the code
(raising `UnauthorizedException` when verification fails), then find the
user by phone number or create a fresh one, and return tokens plus the
profile. -/
def login_with_phone (phone_number verification_code : String) (now : Nat)
    (db : DB) : ApiResult LoginResponse :=
  match verify_code phone_number verification_code now db with
  | (false, db1) => .error (.unauthorized "验证码错误或已过期", db1)
  | (true, db1) =>
    match db1.users.find? (fun u => u.phone_number == some phone_number) with
    | some user => .ok (mkLoginResponse user false, db1)
    | none =>
      let user : User :=
        { id := db1.nextId, phone_number := some phone_number
          membership_type := .free, created_at := now }
      let db2 := { db1 with users := db1.users ++ [user], nextId := db1.nextId + 1 }
      .ok (mkLoginResponse user true, db2)

/-- `create_guest_user` of `app/services/auth_service.py`. -/
def create_guest_user (now : Nat) (db : DB) : (User × String × String) × DB :=
  let user : User :=
    { id := db.nextId, is_guest := true, membership_type := .free, created_at := now }
  ((user, create_access_token user.id, create_refresh_token user.id),
    { db with users := db.users ++ [user], nextId := db.nextId + 1 })

/-! ## Image service (`app/services/image_service.py`) -/

/-- An incoming `UploadFile`: the bytes are abstracted to the data the
service reads off them — declared content type, the format PIL detects
from the bytes, the decoded dimensions and the byte length. -/
structure UploadFile where
  filename : Option String := none
  content_type : String
  pil_format : Option String := none
  width : Nat := 0
  height : Nat := 0
  size : Nat := 0
  deriving DecidableEq, Repr

/-- `IMAGE_FORMAT_MAP`: PIL format name → (format enum, extension). -/
def IMAGE_FORMAT_MAP : String → Option (ImageFormat × String)
  | "jpeg" => some (.jpg, "jpg")
  | "jpg" => some (.jpg, "jpg")
  | "png" => some (.png, "png")
  | "webp" => some (.webp, "webp")
  | _ => none

/-- `CONTENT_TYPE_FORMAT_MAP`: content type → (format enum, extension). -/
def CONTENT_TYPE_FORMAT_MAP : String → Option (ImageFormat × String)
  | "image/jpeg" => some (.jpg, "jpg")
  | "image/png" => some (.png, "png")
  | "image/webp" => some (.webp, "webp")
  | _ => none

/-- `detect_image_format`: PIL's detected format first, then the declared
content type, then default JPG. -/
def detect_image_format (pil_format : Option String) (content_type : String) :
    ImageFormat × String :=
  match pil_format with
  | some f =>
    match IMAGE_FORMAT_MAP f.toLower with
    | some r => r
    | none =>
      match CONTENT_TYPE_FORMAT_MAP content_type with
      | some r => r
      | none => (.jpg, "jpg")
  | none =>
    match CONTENT_TYPE_FORMAT_MAP content_type with
    | some r => r
    | none => (.jpg, "jpg")

/-- `storage_service.upload_file` (`app/services/storage_service.py`):
OSS is an external collaborator; the URL it hands back for a stored
object is modelled as a deterministic function of the object path. -/
def storage_upload (path : String) : String :=
  "https://oss.lumina.example/" ++ path

/-- `UploadedImage` of `app/schemas/image.py`. -/
structure UploadedImage where
  id : Nat
  filename : String
  url : String
  thumbnail : Option String
  width : Nat
  height : Nat
  size : Nat
  format : String
  uploadedAt : Nat
  deriving DecidableEq, Repr

/-- The `UploadedImage(...)` construction used across the services. -/
def mkUploadedImage (image : Image) : UploadedImage :=
  { id := image.id, filename := image.filename, url := image.url
    thumbnail := image.thumbnail, width := image.width, height := image.height
    size := image.size, format := image.format.value, uploadedAt := image.uploaded_at }

/-- The allowed upload content types of `upload_images`. -/
def allowedContentTypes : List String := ["image/jpeg", "image/png", "image/webp"]

/-- The body of one accepted iteration of the `upload_images` loop: read
the file, detect its format, upload it and its thumbnail to OSS, and
commit one `images` row. -/
def upload_one (user_id now : Nat) (file : UploadFile) (db : DB) : Image × DB :=
  let (img_format, file_ext) := detect_image_format file.pil_format file.content_type
  let image_id := db.nextId
  let file_path := toString user_id ++ "/" ++ toString image_id ++ "." ++ file_ext
  let url := storage_upload file_path
  let thumbnail_path := toString user_id ++ "/thumb_" ++ toString image_id ++ "." ++ file_ext
  let thumbnail_url := storage_upload thumbnail_path
  let image : Image :=
    { id := image_id, user_id := user_id
      filename := file.filename.getD ("image." ++ file_ext)
      url := url, thumbnail := some thumbnail_url
      width := file.width, height := file.height, size := file.size
      format := img_format, uploaded_at := now }
  (image, { db with images := db.images ++ [image], nextId := db.nextId + 1 })

/-- The `upload_images` loop: each accepted file is committed as one
`images` row before the next file is examined; a file of a disallowed
content type raises at that point, the earlier commits standing. -/
def upload_images_loop (user_id now : Nat) :
    List UploadFile → DB → Except (LuminaError × DB) (List UploadedImage × DB)
  | [], db => .ok ([], db)
  | file :: rest, db =>
    if !(allowedContentTypes.contains file.content_type) then
      .error (.badRequest ("不支持的图片格式: " ++ file.content_type), db)
    else
      let (image, db1) := upload_one user_id now file db
      match upload_images_loop user_id now rest db1 with
      | .ok (uploaded, db2) => .ok (mkUploadedImage image :: uploaded, db2)
      | .error e => .error e

/-- `upload_images`: reject batches over 100 files up front, then process
the files one by one, committing each. -/
def upload_images (files : List UploadFile) (user_id now : Nat) (db : DB) :
    Except (LuminaError × DB) (List UploadedImage × DB) :=
  if files.length > 100 then
    .error (.badRequest "单次最多上传100张图片", db)
  else
    upload_images_loop user_id now files db

/-- `ProcessImageRequest` of `app/schemas/image.py`. -/
structure ProcessImageRequest where
  imageId : Nat
  operations : List ImageOperation
  outputSize : Option String := none
  quality : Nat := 85
  edgeSmoothing : Bool := true
  sceneType : Option SceneType := none
  deriving DecidableEq, Repr

/-- `ProcessTaskResponse` of `app/schemas/image.py`. -/
structure ProcessTaskResponse where
  taskId : Nat
  status : String
  estimatedTime : Nat
  deriving DecidableEq, Repr

/-- The argument pack `process_image_task` hands to
`background_tasks.add_task(execute_image_processing, ...)`. -/
structure PendingCallback where
  task_id : Nat
  image_url : String
  operations : List ImageOperation
  output_size : Option String
  quality : Nat
  edge_smoothing : Bool
  deriving DecidableEq, Repr

/-- `process_image_task` of `app/services/image_service.py`: verify the
image belongs to the user (else 404, nothing persisted), commit a fresh
`ProcessTask` in state PENDING, and enqueue the background callback. -/
def process_image_task (req : ProcessImageRequest) (user_id now : Nat) (db : DB) :
    Except (LuminaError × DB) ((ProcessTaskResponse × PendingCallback) × DB) :=
  match db.images.find? (fun i => i.id == req.imageId && i.user_id == user_id) with
  | none => .error (.notFound "图片不存在", db)
  | some image =>
    let task_id := db.nextId
    let task : ProcessTask :=
      { id := task_id, user_id := user_id, image_id := image.id
        status := .pending, progress := 0
        operations := req.operations
        output_size := req.outputSize, quality := req.quality
        edge_smoothing := req.edgeSmoothing
        scene_type := req.sceneType.map SceneType.value
        created_at := now }
    let db1 := { db with tasks := db.tasks ++ [task], nextId := db.nextId + 1 }
    let cb : PendingCallback :=
      { task_id := task_id, image_url := image.url, operations := req.operations
        output_size := req.outputSize, quality := req.quality
        edge_smoothing := req.edgeSmoothing }
    .ok ((⟨task.id, task.status.value, 5⟩, cb), db1)

/-- What `await process_image(...)` (`app/utils/ai_processor.py`, an
external vision service) comes back with when it returns a usable dict:
the keys `execute_image_processing` reads. -/
structure AIResult where
  processed_url : String
  thumbnail_url : Option String := none
  width : Option Nat := none
  height : Option Nat := none
  size : Option Nat := none
  deriving DecidableEq, Repr

/-- The three ways the `await process_image(...)` call can go inside the
`try` of `execute_image_processing`: a usable result, a falsy result
(`if not result`), or a raised exception. -/
inductive AIOutcome where
  | success (r : AIResult)
  | empty
  | failure (msg : String)
  deriving DecidableEq, Repr

/-- Look up a task by primary key, as `query(ProcessTask).filter(ProcessTask.id == task_id).first()`. -/
def findTask? (db : DB) (task_id : Nat) : Option ProcessTask :=
  db.tasks.find? (fun t => t.id == task_id)

/-- Updating the ORM row with the given id in place. -/
def updateTask (task_id : Nat) (f : ProcessTask → ProcessTask)
    (tasks : List ProcessTask) : List ProcessTask :=
  tasks.map fun t => if t.id == task_id then f t else t

/-- `task.status = TaskStatus.PROCESSING; task.progress = 10`. -/
def processingUpdate (t : ProcessTask) : ProcessTask :=
  { t with status := .processing, progress := 10 }

/-- The field updates of the two FAILED endings (empty result and raised
exception differ only in the message). -/
def failedUpdate (msg : String) (now : Nat) (t : ProcessTask) : ProcessTask :=
  { t with status := .failed, error_message := some msg, completed_at := some now }

/-- The field updates of the COMPLETED ending. -/
def completedUpdate (pid now : Nat) (t : ProcessTask) : ProcessTask :=
  { t with status := .completed, progress := 100, result_image_id := some pid
           completed_at := some now, processing_time := some (now - t.created_at) }

/-- The first half of `execute_image_processing`, up to the first
`db.commit()`: if the task exists, mark it PROCESSING at progress 10. -/
def execPhase1 (task_id : Nat) (db : DB) : DB :=
  match findTask? db task_id with
  | none => db
  | some _ =>
    { db with tasks := updateTask task_id processingUpdate db.tasks }

/-- The second half of `execute_image_processing`, from the
`await process_image(...)` call to the final `db.commit()`: a falsy
result or an exception marks the task FAILED with an error message; a
usable result commits a fresh result `Image` owned by the task's user
and marks the task COMPLETED at progress 100. -/
def execPhase2 (task_id : Nat) (outcome : AIOutcome) (now : Nat) (db : DB) : DB :=
  match findTask? db task_id with
  | none => db
  | some task =>
    match outcome with
    | .failure msg =>
      { db with tasks := updateTask task_id (failedUpdate msg now) db.tasks }
    | .empty =>
      { db with tasks := updateTask task_id (failedUpdate "AI处理服务返回错误" now) db.tasks }
    | .success r =>
      let processed_image_id := db.nextId
      let processed_image : Image :=
        { id := processed_image_id, user_id := task.user_id
          filename := "processed_" ++ toString task.image_id ++ ".jpg"
          url := r.processed_url, thumbnail := r.thumbnail_url
          width := r.width.getD 2000, height := r.height.getD 2000
          size := r.size.getD 0, format := .jpg, uploaded_at := now }
      { db with images := db.images ++ [processed_image]
                tasks := updateTask task_id (completedUpdate processed_image_id now) db.tasks
                nextId := db.nextId + 1 }

/-- `execute_image_processing` run to completion with the AI service's
outcome given: a no-op when the task id is unknown, otherwise phase 1
then phase 2. -/
def execute_image_processing (task_id : Nat) (outcome : AIOutcome) (now : Nat)
    (db : DB) : DB :=
  execPhase2 task_id outcome now (execPhase1 task_id db)

/-- `ProcessStatusResponse` of `app/schemas/image.py`. -/
structure ProcessStatusResponse where
  taskId : Nat
  status : String
  progress : Nat
  message : Option String
  estimatedTimeRemaining : Option Int
  deriving DecidableEq, Repr

/-- `get_process_status` of `app/services/image_service.py`: the task is
looked up by id and owner together; a missing or foreign task is a 404. -/
def get_process_status (task_id user_id now : Nat) (db : DB) :
    Except (LuminaError × DB) (ProcessStatusResponse × DB) :=
  match db.tasks.find? (fun t => t.id == task_id && t.user_id == user_id) with
  | none => .error (.notFound "任务不存在", db)
  | some task =>
    let message : Option String :=
      if task.status == .processing then some "正在处理中..."
      else if task.status == .completed then some "处理完成"
      else if task.status == .failed then some (task.error_message.getD "处理失败")
      else none
    let estimated : Option Int :=
      if task.status == .processing then
        some (max 1 (5 - ((now : Int) - (task.created_at : Int))))
      else none
    .ok (⟨task.id, task.status.value, task.progress, message, estimated⟩, db)

/-- `ProcessedImage` of `app/schemas/image.py`.  The FAILED branch of
`get_process_result` builds a placeholder with the empty string for an
id; this sentinel is modelled by `none`. -/
structure ProcessedImage where
  id : Option Nat
  url : String
  thumbnail : Option String
  width : Nat
  height : Nat
  size : Nat
  format : String
  operations : List ImageOperation
  deriving DecidableEq, Repr

/-- `ProcessResultResponse` of `app/schemas/image.py`. -/
structure ProcessResultResponse where
  taskId : Nat
  status : String
  resultImage : ProcessedImage
  processingTime : Nat
  beforeImage : UploadedImage
  error : Option String
  deriving DecidableEq, Repr

/-- `get_process_result` of `app/services/image_service.py`. -/
def get_process_result (task_id user_id : Nat) (db : DB) :
    Except (LuminaError × DB) (ProcessResultResponse × DB) :=
  match db.tasks.find? (fun t => t.id == task_id && t.user_id == user_id) with
  | none => .error (.notFound "任务不存在", db)
  | some task =>
    if task.status != .completed && task.status != .failed then
      .error (.badRequest "任务尚未完成", db)
    else
      match db.images.find? (fun i => i.id == task.image_id) with
      | none => .error (.notFound "源图片不存在", db)
      | some source_image =>
        let before_image := mkUploadedImage source_image
        if task.status == .failed then
          .ok (⟨task.id, task.status.value,
                ⟨none, "", none, 0, 0, 0, ImageFormat.jpg.value, []⟩,
                0, before_image, task.error_message⟩, db)
        else
          match db.images.find? (fun i => task.result_image_id == some i.id) with
          | none => .error (.notFound "处理结果图片不存在", db)
          | some result_image =>
            .ok (⟨task.id, task.status.value,
                  ⟨some result_image.id, result_image.url, result_image.thumbnail
                    , result_image.width, result_image.height, result_image.size
                    , result_image.format.value, task.operations⟩,
                  task.processing_time.getD 0, before_image, none⟩, db)

/-! ## Work service (`app/services/work_service.py`) -/

/-- `Work` of `app/schemas/work.py` (the response shape; `WorkSchema` in
the service's imports). -/
structure WorkSchema where
  id : Nat
  filename : String
  thumbnail : Option String
  category : Option SceneType
  size : Nat
  createdAt : Nat
  deriving DecidableEq, Repr

/-- `WorkDetail` of `app/schemas/work.py`. -/
structure WorkDetail where
  id : Nat
  filename : String
  thumbnail : Option String
  category : Option SceneType
  size : Nat
  createdAt : Nat
  imageUrl : String
  beforeImage : UploadedImage
  afterImage : ProcessedImage
  tags : List String
  operations : List ImageOperation
  deriving DecidableEq, Repr

/-- `SaveWorkRequest` of `app/schemas/work.py`. -/
structure SaveWorkRequest where
  processedImageId : Nat
  filename : String
  category : Option SceneType := none
  tags : List String := []
  deriving DecidableEq, Repr

/-- `save_work` of `app/services/work_service.py`: the processed image
must exist and belong to the caller (else 404); a fresh `works` row is
committed. -/
def save_work (req : SaveWorkRequest) (user_id : Nat) (db : DB) :
    Except (LuminaError × DB) (WorkSchema × DB) :=
  match db.images.find? (fun i => i.id == req.processedImageId && i.user_id == user_id) with
  | none => .error (.notFound "处理后的图片不存在", db)
  | some processed_image =>
    let work : Work :=
      { id := db.nextId, user_id := user_id
        processed_image_id := processed_image.id
        filename := req.filename, category := req.category, tags := req.tags
        size := processed_image.size, created_at := processed_image.uploaded_at }
    let db1 := { db with works := db.works ++ [work], nextId := db.nextId + 1 }
    .ok (⟨work.id, work.filename, processed_image.thumbnail, work.category
           , work.size, work.created_at⟩, db1)

/-- `get_work_detail` of `app/services/work_service.py`: the work is
looked up by id and owner together; then its processed image, and the
process task that produced it (source image falling back to the
processed image when the task or source is gone). -/
def get_work_detail (work_id user_id : Nat) (db : DB) :
    Except (LuminaError × DB) (WorkDetail × DB) :=
  match db.works.find? (fun w => w.id == work_id && w.user_id == user_id) with
  | none => .error (.notFound "作品不存在", db)
  | some work =>
    match db.images.find? (fun i => i.id == work.processed_image_id) with
    | none => .error (.notFound "处理后的图片不存在", db)
    | some processed_image =>
      let process_task := db.tasks.find? fun t =>
        t.result_image_id == some processed_image.id && t.user_id == user_id
      let source_image :=
        match process_task with
        | some t =>
          match db.images.find? (fun i => i.id == t.image_id) with
          | some src => src
          | none => processed_image
        | none => processed_image
      let ops :=
        match process_task with
        | some t => t.operations
        | none => []
      .ok (⟨work.id, work.filename, processed_image.thumbnail, work.category
             , work.size, work.created_at, processed_image.url
             , mkUploadedImage source_image
             , ⟨some processed_image.id, processed_image.url, processed_image.thumbnail
                 , processed_image.width, processed_image.height, processed_image.size
                 , processed_image.format.value, ops⟩
             , work.tags, ops⟩, db)

/-- `delete_work` of `app/services/work_service.py`: the work is looked
up by id and owner together (else 404); the found row is deleted. -/
def delete_work (work_id user_id : Nat) (db : DB) :
    Except (LuminaError × DB) (Unit × DB) :=
  match db.works.find? (fun w => w.id == work_id && w.user_id == user_id) with
  | none => .error (.notFound "作品不存在", db)
  | some work =>
    .ok ((), { db with works := db.works.filter (fun w => !(w.id == work.id)) })

/-- `batch_delete_works` of `app/services/work_service.py`. -/
def batch_delete_works (work_ids : List Nat) (user_id : Nat) (db : DB) :
    Except (LuminaError × DB) (Unit × DB) :=
  let works := db.works.filter (fun w => work_ids.contains w.id && w.user_id == user_id)
  if works.length != work_ids.length then
    .error (.badRequest "部分作品不存在或无权限", db)
  else
    let remaining := db.works.filter
      (fun w => !(work_ids.contains w.id && w.user_id == user_id))
    .ok ((), { db with works := remaining })

/-! ## The system: one request or background callback at a time

`process_image_task` enqueues one `execute_image_processing` callback per
created task on FastAPI's `BackgroundTasks`; the host runtime runs each
enqueued callback exactly once.  A system state is the database plus the
enqueued callbacks that have not started and the callbacks past their
first commit (the task marked PROCESSING) whose AI call is in flight. -/

structure SysState where
  db : DB
  queue : List PendingCallback := []
  running : List PendingCallback := []
  deriving DecidableEq, Repr

/-- One occurrence in the system: an HTTP request hitting a service
function, or a scheduled background callback reaching its first commit
(`startCallback`) or running from its AI call to its last commit
(`finishCallback`, the AI service's outcome attached). -/
inductive Event where
  | sendCode (phone : String) (now : Nat)
  | loginPhone (phone code : String) (now : Nat)
  | guest (now : Nat)
  | upload (files : List UploadFile) (user_id now : Nat)
  | processImage (req : ProcessImageRequest) (user_id now : Nat)
  | startCallback (task_id : Nat)
  | finishCallback (task_id : Nat) (outcome : AIOutcome) (now : Nat)
  | getStatus (task_id user_id now : Nat)
  | getResult (task_id user_id : Nat)
  | workDetail (work_id user_id : Nat)
  | saveWork (req : SaveWorkRequest) (user_id : Nat)
  | deleteWork (work_id user_id : Nat)
  | batchDeleteWorks (work_ids : List Nat) (user_id : Nat)
  deriving DecidableEq, Repr

/-- Remove the callback for a task id from a callback list. -/
def removeCb (task_id : Nat) (cbs : List PendingCallback) : List PendingCallback :=
  cbs.filter (fun cb => !(cb.task_id == task_id))

/-- The system taking one event: the state afterwards and the
`LuminaException` surfaced to the caller, if one was raised.  A
`startCallback`/`finishCallback` for a task id not at that stage of the
queue is a no-op (the runtime only runs what was enqueued, once). -/
def step (e : Event) (s : SysState) : SysState × Option LuminaError :=
  match e with
  | .sendCode phone now =>
    ({ s with db := (send_verification_code phone now s.db).2 }, none)
  | .loginPhone phone code now =>
    match login_with_phone phone code now s.db with
    | .ok (_, db') => ({ s with db := db' }, none)
    | .error (er, db') => ({ s with db := db' }, some er)
  | .guest now =>
    ({ s with db := (create_guest_user now s.db).2 }, none)
  | .upload files user_id now =>
    match upload_images files user_id now s.db with
    | .ok (_, db') => ({ s with db := db' }, none)
    | .error (er, db') => ({ s with db := db' }, some er)
  | .processImage req user_id now =>
    match process_image_task req user_id now s.db with
    | .ok ((_, cb), db') => ({ s with db := db', queue := s.queue ++ [cb] }, none)
    | .error (er, db') => ({ s with db := db' }, some er)
  | .startCallback task_id =>
    match s.queue.find? (fun cb => cb.task_id == task_id) with
    | none => (s, none)
    | some cb =>
      ({ db := execPhase1 task_id s.db
         queue := removeCb task_id s.queue
         running := s.running ++ [cb] }, none)
  | .finishCallback task_id outcome now =>
    match s.running.find? (fun cb => cb.task_id == task_id) with
    | none => (s, none)
    | some _ =>
      ({ db := execPhase2 task_id outcome now s.db
         queue := s.queue
         running := removeCb task_id s.running }, none)
  | .getStatus task_id user_id now =>
    match get_process_status task_id user_id now s.db with
    | .ok (_, db') => ({ s with db := db' }, none)
    | .error (er, db') => ({ s with db := db' }, some er)
  | .getResult task_id user_id =>
    match get_process_result task_id user_id s.db with
    | .ok (_, db') => ({ s with db := db' }, none)
    | .error (er, db') => ({ s with db := db' }, some er)
  | .workDetail work_id user_id =>
    match get_work_detail work_id user_id s.db with
    | .ok (_, db') => ({ s with db := db' }, none)
    | .error (er, db') => ({ s with db := db' }, some er)
  | .saveWork req user_id =>
    match save_work req user_id s.db with
    | .ok (_, db') => ({ s with db := db' }, none)
    | .error (er, db') => ({ s with db := db' }, some er)
  | .deleteWork work_id user_id =>
    match delete_work work_id user_id s.db with
    | .ok (_, db') => ({ s with db := db' }, none)
    | .error (er, db') => ({ s with db := db' }, some er)
  | .batchDeleteWorks work_ids user_id =>
    match batch_delete_works work_ids user_id s.db with
    | .ok (_, db') => ({ s with db := db' }, none)
    | .error (er, db') => ({ s with db := db' }, some er)

/-- The status of the task with a given id, `none` when no such row. -/
def taskStatus? (db : DB) (task_id : Nat) : Option TaskStatus :=
  (findTask? db task_id).map (·.status)

/-- The well-formedness the running system keeps: ids are below the fresh
counter, a queued callback's task is PENDING, a running callback's task
is PROCESSING, and no task has a callback both queued and running. -/
def Wf (s : SysState) : Prop :=
  (∀ t ∈ s.db.tasks, t.id < s.db.nextId) ∧
  (∀ i ∈ s.db.images, i.id < s.db.nextId) ∧
  (∀ cb ∈ s.queue, taskStatus? s.db cb.task_id = some .pending) ∧
  (∀ cb ∈ s.running, taskStatus? s.db cb.task_id = some .processing) ∧
  (∀ cb ∈ s.queue, ∀ cb' ∈ s.running, cb.task_id ≠ cb'.task_id)

instance (s : SysState) : Decidable (Wf s) := by
  unfold Wf; infer_instance

/-- The status transitions of the PENDING → PROCESSING →
(COMPLETED | FAILED) chain: what one system event may do to one task. -/
def statusStepOK (before after : TaskStatus) : Prop :=
  before = after ∨
    (before = .pending ∧ after = .processing) ∨
    (before = .processing ∧ (after = .completed ∨ after = .failed))

instance (a b : TaskStatus) : Decidable (statusStepOK a b) := by
  unfold statusStepOK; infer_instance

/-! ## Helper lemmas -/

/-- The database a service call left behind, whether it returned or raised. -/
def resultDB {α : Type} : Except (LuminaError × DB) (α × DB) → DB
  | .ok (_, db) => db
  | .error (_, db) => db

theorem find?_id_updateTask (task_id x : Nat) (f : ProcessTask → ProcessTask)
    (hf : ∀ t, (f t).id = t.id) (tasks : List ProcessTask) :
    (updateTask task_id f tasks).find? (fun t => t.id == x) =
      (tasks.find? (fun t => t.id == x)).map
        (fun t => if t.id == task_id then f t else t) := by
  induction tasks with
  | nil => rfl
  | cons hd rest ih =>
    have hid : (if hd.id == task_id then f hd else hd).id = hd.id := by
      by_cases h : hd.id == task_id <;> simp [h, hf]
    simp only [updateTask, List.map_cons] at *
    by_cases hx : (hd.id == x) = true
    · rw [List.find?_cons_of_pos _ (by rw [hid]; exact hx),
          List.find?_cons_of_pos (p := fun t => t.id == x) rest hx]
      rfl
    · rw [List.find?_cons_of_neg _ (by rw [hid]; exact hx),
          List.find?_cons_of_neg (p := fun t => t.id == x) rest hx]
      exact ih

theorem findTask?_updateTask (task_id x : Nat) (f : ProcessTask → ProcessTask)
    (hf : ∀ t, (f t).id = t.id) (db : DB) (tasks : List ProcessTask) :
    findTask? { db with tasks := updateTask task_id f tasks } x =
      (tasks.find? (fun t => t.id == x)).map
        (fun t => if t.id == task_id then f t else t) := by
  simpa [findTask?] using find?_id_updateTask task_id x f hf tasks

theorem upload_one_snd (user_id now : Nat) (file : UploadFile) (db : DB) :
    (upload_one user_id now file db).2 =
      { db with images := db.images ++ [(upload_one user_id now file db).1]
                nextId := db.nextId + 1 } := rfl

theorem upload_one_fst_id (user_id now : Nat) (file : UploadFile) (db : DB) :
    (upload_one user_id now file db).1.id = db.nextId := rfl

theorem upload_one_fst_user (user_id now : Nat) (file : UploadFile) (db : DB) :
    (upload_one user_id now file db).1.user_id = user_id := rfl

theorem upload_one_snd_nextId (user_id now : Nat) (file : UploadFile) (db : DB) :
    (upload_one user_id now file db).2.nextId = db.nextId + 1 := rfl

/-- Whatever the loop does, the database it leaves behind is the input
database with a batch of fresh images appended for the committed files. -/
theorem upload_loop_db_shape (user_id now : Nat) (files : List UploadFile) :
    ∀ db : DB, ∃ new : List Image,
      resultDB (upload_images_loop user_id now files db) =
        { db with images := db.images ++ new, nextId := db.nextId + new.length } ∧
      ∀ i ∈ new, i.user_id = user_id ∧ db.nextId ≤ i.id ∧
        i.id < db.nextId + new.length := by
  induction files with
  | nil =>
    intro db
    exact ⟨[], by simp [upload_images_loop, resultDB], by simp⟩
  | cons file rest ih =>
    intro db
    by_cases hct : file.content_type ∈ allowedContentTypes
    · obtain ⟨new', hdb, hprops⟩ := ih (upload_one user_id now file db).2
      refine ⟨(upload_one user_id now file db).1 :: new', ?_, ?_⟩
      · have hres : resultDB (upload_images_loop user_id now (file :: rest) db) =
            resultDB (upload_images_loop user_id now rest (upload_one user_id now file db).2) := by
          simp only [upload_images_loop]
          cases h : upload_images_loop user_id now rest (upload_one user_id now file db).2 with
          | ok v => cases v with | mk a b => simp [resultDB, hct]
          | error e => cases e with | mk a b => simp [resultDB, hct]
        rw [hres, hdb, upload_one_snd]
        simp [Nat.add_comm, Nat.add_assoc, Nat.add_left_comm]
      · intro i hi
        rcases List.mem_cons.mp hi with h | h
        · subst h
          refine ⟨upload_one_fst_user _ _ _ _, ?_, ?_⟩ <;>
            rw [upload_one_fst_id] <;> simp only [List.length_cons] <;> omega
        · obtain ⟨hu, hlo, hhi⟩ := hprops i h
          rw [upload_one_snd_nextId] at hlo hhi
          exact ⟨hu, by omega, by simp only [List.length_cons]; omega⟩
    · exact ⟨[], by simp [upload_images_loop, hct, resultDB], by simp⟩

/-- Running the loop on a prefix of accepted files commits exactly one
image row per file of the prefix and then behaves as the loop on the
remaining files. -/
theorem upload_loop_good_prefix (user_id now : Nat) (pre : List UploadFile) :
    ∀ (rest : List UploadFile) (db : DB),
      (∀ g ∈ pre, g.content_type ∈ allowedContentTypes) →
      ∃ db1 new, db1.images = db.images ++ new ∧ new.length = pre.length ∧
        (∀ i ∈ new, i.user_id = user_id) ∧
        ∀ er db2, upload_images_loop user_id now rest db1 = .error (er, db2) →
          upload_images_loop user_id now (pre ++ rest) db = .error (er, db2) := by
  induction pre with
  | nil =>
    intro rest db _
    exact ⟨db, [], by simp, rfl, by simp, fun er db2 he => by simpa using he⟩
  | cons f pre' ih =>
    intro rest db h
    have hf : f.content_type ∈ allowedContentTypes := h f (by simp)
    obtain ⟨db1, new', h1, h2, h3, h4⟩ :=
      ih rest (upload_one user_id now f db).2 (fun g hg => h g (by simp [hg]))
    refine ⟨db1, (upload_one user_id now f db).1 :: new', ?_, by simp [h2], ?_, ?_⟩
    · rw [h1, upload_one_snd]; simp
    · intro i hi
      rcases List.mem_cons.mp hi with hh | hh
      · subst hh; exact upload_one_fst_user user_id now f db
      · exact h3 i hh
    · intro er db2 he
      have hrec := h4 er db2 he
      simp only [List.cons_append, upload_images_loop]
      rw [if_neg (by simp [hf])]
      simp [hrec]

/-- Every error the upload loop raises is a `BadRequestException`. -/
theorem upload_loop_error_badRequest (user_id now : Nat) (files : List UploadFile) :
    ∀ db er db', upload_images_loop user_id now files db = .error (er, db') →
      ∃ m, er = .badRequest m := by
  induction files with
  | nil => intro db er db' h; simp [upload_images_loop] at h
  | cons f rest ih =>
    intro db er db' h
    by_cases hf : f.content_type ∈ allowedContentTypes
    · simp only [upload_images_loop] at h
      rw [if_neg (by simp [hf])] at h
      cases hin : upload_images_loop user_id now rest (upload_one user_id now f db).2 with
      | ok v =>
        rw [hin] at h
        cases v with | mk a b => simp at h
      | error e =>
        cases e with
        | mk a b =>
          rw [hin] at h
          simp at h
          obtain ⟨m, hm⟩ := ih (upload_one user_id now f db).2 a b hin
          exact ⟨m, h.1 ▸ hm⟩
    · simp [upload_images_loop, hf] at h
      exact ⟨_, h.1.symm⟩

/-- Every error `upload_images` raises is a `BadRequestException`. -/
theorem upload_images_error_badRequest (files : List UploadFile) (user_id now : Nat)
    (db : DB) (er : LuminaError) (db' : DB)
    (h : upload_images files user_id now db = .error (er, db')) :
    ∃ m, er = .badRequest m := by
  unfold upload_images at h
  by_cases hlen : files.length > 100
  · rw [if_pos hlen] at h
    simp at h
    exact ⟨_, h.1.symm⟩
  · rw [if_neg hlen] at h
    exact upload_loop_error_badRequest user_id now files db er db' h

/-- The only error `login_with_phone` raises is the 401 for a failed
verification, and it commits nothing. -/
theorem login_with_phone_error_shape (p c : String) (n : Nat) (db db' : DB)
    (er : LuminaError) (h : login_with_phone p c n db = .error (er, db')) :
    er = .unauthorized "验证码错误或已过期" ∧ db' = db := by
  unfold login_with_phone verify_code at h
  cases hf : findVerification? p c n db.codes with
  | none =>
    rw [hf] at h
    simp at h
    exact ⟨h.1.symm, h.2.symm⟩
  | some v =>
    rw [hf] at h
    cases hu : List.find? (fun u => u.phone_number == some p) db.users <;>
      simp [hu] at h

/-- The only error `process_image_task` raises is the 404 for a missing
or foreign image, and it commits nothing. -/
theorem process_image_task_error_shape (req : ProcessImageRequest) (user_id now : Nat)
    (db db' : DB) (er : LuminaError)
    (h : process_image_task req user_id now db = .error (er, db')) :
    er = .notFound "图片不存在" ∧ db' = db := by
  unfold process_image_task at h
  cases hx : db.images.find? (fun i => i.id == req.imageId && i.user_id == user_id) with
  | none => simp [hx] at h; exact ⟨h.1.symm, h.2.symm⟩
  | some image => simp [hx] at h

/-- The only error `get_process_status` raises is the 404 for a missing
or foreign task, and it commits nothing. -/
theorem get_process_status_error_shape (task_id user_id now : Nat) (db db' : DB)
    (er : LuminaError) (h : get_process_status task_id user_id now db = .error (er, db')) :
    er = .notFound "任务不存在" ∧ db' = db := by
  unfold get_process_status at h
  cases hx : db.tasks.find? (fun t => t.id == task_id && t.user_id == user_id) with
  | none => simp [hx] at h; exact ⟨h.1.symm, h.2.symm⟩
  | some task => simp [hx] at h

/-- `get_process_result` raises only 404s and the 400 for an unfinished
task, and commits nothing. -/
theorem get_process_result_error_shape (task_id user_id : Nat) (db db' : DB)
    (er : LuminaError) (h : get_process_result task_id user_id db = .error (er, db')) :
    (er = .notFound "任务不存在" ∨ er = .badRequest "任务尚未完成" ∨
      er = .notFound "源图片不存在" ∨ er = .notFound "处理结果图片不存在") ∧ db' = db := by
  unfold get_process_result at h
  cases hx : db.tasks.find? (fun t => t.id == task_id && t.user_id == user_id) with
  | none =>
    simp [hx] at h
    exact ⟨Or.inl h.1.symm, h.2.symm⟩
  | some task =>
    simp only [hx] at h
    by_cases hs : (task.status != TaskStatus.completed && task.status != TaskStatus.failed) = true
    · rw [if_pos hs] at h
      simp at h
      exact ⟨Or.inr (Or.inl h.1.symm), h.2.symm⟩
    · rw [if_neg hs] at h
      cases hy : db.images.find? (fun i => i.id == task.image_id) with
      | none =>
        simp [hy] at h
        exact ⟨Or.inr (Or.inr (Or.inl h.1.symm)), h.2.symm⟩
      | some source_image =>
        simp only [hy] at h
        by_cases hfail : (task.status == TaskStatus.failed) = true
        · rw [if_pos hfail] at h; simp at h
        · rw [if_neg hfail] at h
          cases hz : db.images.find? (fun i => task.result_image_id == some i.id) with
          | none =>
            simp [hz] at h
            exact ⟨Or.inr (Or.inr (Or.inr h.1.symm)), h.2.symm⟩
          | some result_image => simp [hz] at h

/-- `get_work_detail` raises only 404s, and commits nothing. -/
theorem get_work_detail_error_shape (work_id user_id : Nat) (db db' : DB)
    (er : LuminaError) (h : get_work_detail work_id user_id db = .error (er, db')) :
    (er = .notFound "作品不存在" ∨ er = .notFound "处理后的图片不存在") ∧ db' = db := by
  unfold get_work_detail at h
  cases hx : db.works.find? (fun w => w.id == work_id && w.user_id == user_id) with
  | none =>
    simp [hx] at h
    exact ⟨Or.inl h.1.symm, h.2.symm⟩
  | some work =>
    simp only [hx] at h
    cases hy : db.images.find? (fun i => i.id == work.processed_image_id) with
    | none =>
      simp [hy] at h
      exact ⟨Or.inr h.1.symm, h.2.symm⟩
    | some processed_image => simp [hy] at h

/-- The only error `save_work` raises is the 404 for a missing or foreign
processed image, and it commits nothing. -/
theorem save_work_error_shape (req : SaveWorkRequest) (user_id : Nat) (db db' : DB)
    (er : LuminaError) (h : save_work req user_id db = .error (er, db')) :
    er = .notFound "处理后的图片不存在" ∧ db' = db := by
  unfold save_work at h
  cases hx : db.images.find? (fun i => i.id == req.processedImageId && i.user_id == user_id) with
  | none => simp [hx] at h; exact ⟨h.1.symm, h.2.symm⟩
  | some processed_image => simp [hx] at h

/-- The only error `delete_work` raises is the 404 for a missing or
foreign work, and it deletes nothing. -/
theorem delete_work_error_shape (work_id user_id : Nat) (db db' : DB)
    (er : LuminaError) (h : delete_work work_id user_id db = .error (er, db')) :
    er = .notFound "作品不存在" ∧ db' = db := by
  unfold delete_work at h
  cases hx : db.works.find? (fun w => w.id == work_id && w.user_id == user_id) with
  | none => simp [hx] at h; exact ⟨h.1.symm, h.2.symm⟩
  | some work => simp [hx] at h

/-- The only error `batch_delete_works` raises is the 400 for a partly
missing batch, and it deletes nothing then. -/
theorem batch_delete_works_error_shape (work_ids : List Nat) (user_id : Nat) (db db' : DB)
    (er : LuminaError) (h : batch_delete_works work_ids user_id db = .error (er, db')) :
    er = .badRequest "部分作品不存在或无权限" ∧ db' = db := by
  unfold batch_delete_works at h
  by_cases hl : ((db.works.filter
      (fun w => work_ids.contains w.id && w.user_id == user_id)).length != work_ids.length) = true
  · rw [if_pos hl] at h
    simp at h
    exact ⟨h.1.symm, h.2.symm⟩
  · rw [if_neg hl] at h
    simp at h

/-! ## Status bookkeeping lemmas -/

/-- The status of the first task with a given id in a task list. -/
def statusOf (tasks : List ProcessTask) (x : Nat) : Option TaskStatus :=
  (tasks.find? (fun t => t.id == x)).map (·.status)

theorem taskStatus?_eq_statusOf (db : DB) (x : Nat) :
    taskStatus? db x = statusOf db.tasks x := rfl

theorem statusOf_updateTask_ne (tasks : List ProcessTask) (tid x : Nat)
    (f : ProcessTask → ProcessTask) (hf : ∀ t, (f t).id = t.id) (hx : x ≠ tid) :
    statusOf (updateTask tid f tasks) x = statusOf tasks x := by
  unfold statusOf
  rw [find?_id_updateTask tid x f hf tasks]
  cases hfind : tasks.find? (fun t => t.id == x) with
  | none => rfl
  | some t =>
    have hid : t.id = x := by simpa using List.find?_some hfind
    simp only [Option.map_some']
    rw [if_neg (by simp only [hid, beq_iff_eq]; exact hx)]

theorem statusOf_updateTask_self (tasks : List ProcessTask) (tid : Nat)
    (f : ProcessTask → ProcessTask) (hf : ∀ t, (f t).id = t.id)
    (c : TaskStatus) (hc : ∀ t, (f t).status = c) (st : TaskStatus)
    (h : statusOf tasks tid = some st) :
    statusOf (updateTask tid f tasks) tid = some c := by
  unfold statusOf at h ⊢
  rw [find?_id_updateTask tid tid f hf tasks]
  cases hfind : tasks.find? (fun t => t.id == tid) with
  | none => rw [hfind] at h; simp at h
  | some t =>
    have ht : t.id = tid := by simpa using List.find?_some hfind
    simp [ht, hc]

theorem statusOf_append_left (tasks ts : List ProcessTask) (x : Nat) (st : TaskStatus)
    (h : statusOf tasks x = some st) : statusOf (tasks ++ ts) x = some st := by
  unfold statusOf at h ⊢
  rw [List.find?_append]
  cases hfind : tasks.find? (fun t => t.id == x) with
  | none => rw [hfind] at h; simp at h
  | some t =>
    rw [hfind] at h
    simpa using h

theorem statusOf_lt (tasks : List ProcessTask) (n x : Nat) (st : TaskStatus)
    (h1 : ∀ t ∈ tasks, t.id < n) (h : statusOf tasks x = some st) : x < n := by
  unfold statusOf at h
  cases hfind : tasks.find? (fun t => t.id == x) with
  | none => rw [hfind] at h; simp at h
  | some t =>
    have hx : t.id = x := by simpa using List.find?_some hfind
    exact hx ▸ h1 t (List.mem_of_find?_eq_some hfind)

theorem statusOf_append_fresh (tasks : List ProcessTask) (t : ProcessTask) (n : Nat)
    (h1 : ∀ u ∈ tasks, u.id < n) (ht : t.id = n) :
    statusOf (tasks ++ [t]) n = some t.status := by
  unfold statusOf
  rw [List.find?_append]
  have hn : tasks.find? (fun u => u.id == n) = none := by
    rw [List.find?_eq_none]
    intro u hu
    simp only [beq_iff_eq]
    exact Nat.ne_of_lt (h1 u hu)
  simp [hn, ht]

theorem updateTask_mem (tid : Nat) (f : ProcessTask → ProcessTask)
    (tasks : List ProcessTask) (t' : ProcessTask) (h : t' ∈ updateTask tid f tasks) :
    ∃ t ∈ tasks, t' = if t.id == tid then f t else t := by
  unfold updateTask at h
  obtain ⟨t, ht, rfl⟩ := List.mem_map.mp h
  exact ⟨t, ht, rfl⟩

/-! ## How each service call reshapes the database -/

theorem send_verification_code_db_shape (p : String) (n : Nat) (db : DB) :
    ((send_verification_code p n db).2).tasks = db.tasks ∧
    ((send_verification_code p n db).2).images = db.images ∧
    db.nextId ≤ ((send_verification_code p n db).2).nextId :=
  ⟨rfl, rfl, Nat.le_succ _⟩

theorem create_guest_user_db_shape (n : Nat) (db : DB) :
    ((create_guest_user n db).2).tasks = db.tasks ∧
    ((create_guest_user n db).2).images = db.images ∧
    db.nextId ≤ ((create_guest_user n db).2).nextId :=
  ⟨rfl, rfl, Nat.le_succ _⟩

theorem login_with_phone_db_shape (p c : String) (n : Nat) (db : DB) :
    (resultDB (login_with_phone p c n db)).tasks = db.tasks ∧
    (resultDB (login_with_phone p c n db)).images = db.images ∧
    db.nextId ≤ (resultDB (login_with_phone p c n db)).nextId := by
  unfold login_with_phone verify_code
  cases hf : findVerification? p c n db.codes with
  | none => simp [resultDB]
  | some v =>
    simp only [hf]
    cases hu : List.find? (fun u => u.phone_number == some p) db.users <;>
      simp [resultDB]

theorem upload_images_db_shape (files : List UploadFile) (user_id now : Nat) (db : DB) :
    ∃ new : List Image,
      resultDB (upload_images files user_id now db) =
        { db with images := db.images ++ new, nextId := db.nextId + new.length } ∧
      ∀ i ∈ new, i.user_id = user_id ∧ db.nextId ≤ i.id ∧
        i.id < db.nextId + new.length := by
  unfold upload_images
  by_cases h : files.length > 100
  · rw [if_pos h]
    exact ⟨[], by simp [resultDB], by simp⟩
  · rw [if_neg h]
    exact upload_loop_db_shape user_id now files db

theorem get_process_status_db (task_id user_id now : Nat) (db : DB) :
    resultDB (get_process_status task_id user_id now db) = db := by
  unfold get_process_status
  cases hx : db.tasks.find? (fun t => t.id == task_id && t.user_id == user_id) <;>
    simp [hx, resultDB]

theorem get_process_result_db (task_id user_id : Nat) (db : DB) :
    resultDB (get_process_result task_id user_id db) = db := by
  unfold get_process_result
  cases hx : db.tasks.find? (fun t => t.id == task_id && t.user_id == user_id) with
  | none => simp [hx, resultDB]
  | some task =>
    simp only [hx]
    by_cases hs : (task.status != TaskStatus.completed && task.status != TaskStatus.failed) = true
    · rw [if_pos hs]; rfl
    · rw [if_neg hs]
      cases hy : db.images.find? (fun i => i.id == task.image_id) with
      | none => simp [resultDB]
      | some source_image =>
        simp only
        by_cases hfail : (task.status == TaskStatus.failed) = true
        · rw [if_pos hfail]; rfl
        · rw [if_neg hfail]
          cases hz : db.images.find? (fun i => task.result_image_id == some i.id) <;>
            simp [resultDB]

theorem get_work_detail_db (work_id user_id : Nat) (db : DB) :
    resultDB (get_work_detail work_id user_id db) = db := by
  unfold get_work_detail
  cases hx : db.works.find? (fun w => w.id == work_id && w.user_id == user_id) with
  | none => simp [hx, resultDB]
  | some work =>
    simp only [hx]
    cases hy : db.images.find? (fun i => i.id == work.processed_image_id) <;>
      simp [resultDB]

theorem save_work_db_shape (req : SaveWorkRequest) (user_id : Nat) (db : DB) :
    (resultDB (save_work req user_id db)).tasks = db.tasks ∧
    (resultDB (save_work req user_id db)).images = db.images ∧
    db.nextId ≤ (resultDB (save_work req user_id db)).nextId := by
  unfold save_work
  cases hx : db.images.find? (fun i => i.id == req.processedImageId && i.user_id == user_id) <;>
    simp [hx, resultDB]

theorem delete_work_db_shape (work_id user_id : Nat) (db : DB) :
    (resultDB (delete_work work_id user_id db)).tasks = db.tasks ∧
    (resultDB (delete_work work_id user_id db)).images = db.images ∧
    db.nextId ≤ (resultDB (delete_work work_id user_id db)).nextId := by
  unfold delete_work
  cases hx : db.works.find? (fun w => w.id == work_id && w.user_id == user_id) <;>
    simp [hx, resultDB]

theorem batch_delete_works_db_shape (work_ids : List Nat) (user_id : Nat) (db : DB) :
    (resultDB (batch_delete_works work_ids user_id db)).tasks = db.tasks ∧
    (resultDB (batch_delete_works work_ids user_id db)).images = db.images ∧
    db.nextId ≤ (resultDB (batch_delete_works work_ids user_id db)).nextId := by
  unfold batch_delete_works
  by_cases hl : ((db.works.filter
      (fun w => work_ids.contains w.id && w.user_id == user_id)).length != work_ids.length) = true
  · rw [if_pos hl]; exact ⟨rfl, rfl, Nat.le_refl _⟩
  · rw [if_neg hl]; exact ⟨rfl, rfl, Nat.le_refl _⟩

/-- Well-formedness survives any event that neither touches the `tasks`
table nor the callback queues, and only appends fresh images. -/
theorem wf_db_only (dbOld : DB) (q r : List PendingCallback) (db' : DB)
    (hW : Wf ⟨dbOld, q, r⟩)
    (htasks : db'.tasks = dbOld.tasks)
    (hnext : dbOld.nextId ≤ db'.nextId)
    (himgs : ∀ i ∈ db'.images, i.id < db'.nextId ∨ i ∈ dbOld.images) :
    Wf ⟨db', q, r⟩ := by
  obtain ⟨h1, h2, h3, h4, h5⟩ := hW
  have hts : ∀ x, taskStatus? db' x = taskStatus? dbOld x := fun x => by
    rw [taskStatus?_eq_statusOf, taskStatus?_eq_statusOf, htasks]
  refine ⟨?_, ?_, ?_, ?_, h5⟩
  · intro t ht
    exact lt_of_lt_of_le (h1 t (htasks ▸ ht)) hnext
  · intro i hi
    rcases himgs i hi with hlt | hmem
    · exact hlt
    · exact lt_of_lt_of_le (h2 i hmem) hnext
  · intro cb hcb
    rw [hts]
    exact h3 cb hcb
  · intro cb hcb
    rw [hts]
    exact h4 cb hcb

theorem statusOf_some_find (db : DB) (tid : Nat) (st : TaskStatus)
    (h : taskStatus? db tid = some st) :
    ∃ t, findTask? db tid = some t ∧ t.status = st := by
  rw [taskStatus?_eq_statusOf] at h
  unfold statusOf at h
  unfold findTask?
  cases hf : db.tasks.find? (fun t => t.id == tid) with
  | none => rw [hf] at h; simp at h
  | some t =>
    rw [hf] at h
    simp at h
    exact ⟨t, rfl, h⟩

theorem mem_removeCb (tid : Nat) (cbs : List PendingCallback) (cb : PendingCallback)
    (h : cb ∈ removeCb tid cbs) : cb ∈ cbs ∧ cb.task_id ≠ tid := by
  unfold removeCb at h
  have hm := List.mem_filter.mp h
  refine ⟨hm.1, ?_⟩
  simpa using hm.2

/-- The system invariant is preserved by every event. -/
theorem wf_step (s : SysState) (e : Event) (h : Wf s) : Wf (step e s).1 := by
  obtain ⟨db, q, r⟩ := s
  obtain ⟨h1, h2, h3, h4, h5⟩ := h
  cases e with
  | sendCode phone now =>
    obtain ⟨ht, hi, hn⟩ := send_verification_code_db_shape phone now db
    exact wf_db_only db q r _ ⟨h1, h2, h3, h4, h5⟩ ht hn (fun i hid => Or.inr (hi ▸ hid))
  | guest now =>
    obtain ⟨ht, hi, hn⟩ := create_guest_user_db_shape now db
    exact wf_db_only db q r _ ⟨h1, h2, h3, h4, h5⟩ ht hn (fun i hid => Or.inr (hi ▸ hid))
  | loginPhone p c now =>
    obtain ⟨ht, hi, hn⟩ := login_with_phone_db_shape p c now db
    cases hr : login_with_phone p c now db with
    | ok v =>
      obtain ⟨resp, db'⟩ := v
      rw [hr] at ht hi hn
      simp only [resultDB] at ht hi hn
      simp only [step, hr]
      exact wf_db_only db q r db' ⟨h1, h2, h3, h4, h5⟩ ht hn (fun i hid => Or.inr (hi ▸ hid))
    | error v =>
      obtain ⟨er, db'⟩ := v
      rw [hr] at ht hi hn
      simp only [resultDB] at ht hi hn
      simp only [step, hr]
      exact wf_db_only db q r db' ⟨h1, h2, h3, h4, h5⟩ ht hn (fun i hid => Or.inr (hi ▸ hid))
  | upload files uid now =>
    obtain ⟨new, hshape, hprops⟩ := upload_images_db_shape files uid now db
    have kmain : ∀ db' : DB,
        db' = { db with images := db.images ++ new, nextId := db.nextId + new.length } →
        Wf ⟨db', q, r⟩ := by
      intro db' hdb'
      apply wf_db_only db q r db' ⟨h1, h2, h3, h4, h5⟩ (by rw [hdb']) (by rw [hdb']; simp)
      intro i hid
      rw [hdb'] at hid
      simp only at hid
      rcases List.mem_append.mp hid with hold | hnew
      · exact Or.inr hold
      · obtain ⟨_, _, hlt⟩ := hprops i hnew
        rw [hdb']
        exact Or.inl hlt
    cases hr : upload_images files uid now db with
    | ok v =>
      obtain ⟨a, db'⟩ := v
      rw [hr] at hshape
      simp only [resultDB] at hshape
      simp only [step, hr]
      exact kmain db' hshape
    | error v =>
      obtain ⟨er, db'⟩ := v
      rw [hr] at hshape
      simp only [resultDB] at hshape
      simp only [step, hr]
      exact kmain db' hshape
  | processImage req uid now =>
    cases hr : process_image_task req uid now db with
    | error v =>
      obtain ⟨er, db'⟩ := v
      obtain ⟨_, hdb⟩ := process_image_task_error_shape req uid now db db' er hr
      simp only [step, hr]
      rw [hdb]
      exact ⟨h1, h2, h3, h4, h5⟩
    | ok v =>
      obtain ⟨⟨resp, cb⟩, db'⟩ := v
      have hr' := hr
      unfold process_image_task at hr'
      cases hfi : db.images.find? (fun i => i.id == req.imageId && i.user_id == uid) with
      | none => simp [hfi] at hr'
      | some image =>
        simp only [hfi, Except.ok.injEq, Prod.mk.injEq] at hr'
        obtain ⟨⟨hresp, hcb⟩, hdb⟩ := hr'
        simp only [step, hr]
        refine ⟨?_, ?_, ?_, ?_, ?_⟩
        · intro t ht
          rw [← hdb] at ht
          simp only at ht
          rw [← hdb]
          simp only
          rcases List.mem_append.mp ht with hold | hnewt
          · exact Nat.lt_succ_of_lt (h1 t hold)
          · simp at hnewt
            rw [hnewt]
            exact Nat.lt_succ_self _
        · intro i hi
          rw [← hdb] at hi
          simp only at hi
          rw [← hdb]
          exact Nat.lt_succ_of_lt (h2 i hi)
        · intro cb0 hcb0
          rcases List.mem_append.mp hcb0 with hold | hnewc
          · rw [taskStatus?_eq_statusOf, ← hdb]
            simp only
            exact statusOf_append_left db.tasks _ _ _
              (by rw [← taskStatus?_eq_statusOf]; exact h3 cb0 hold)
          · simp at hnewc
            rw [hnewc, ← hcb]
            simp only
            rw [taskStatus?_eq_statusOf, ← hdb]
            simp only
            exact statusOf_append_fresh db.tasks _ db.nextId h1 rfl
        · intro cb0 hcb0
          rw [taskStatus?_eq_statusOf, ← hdb]
          simp only
          exact statusOf_append_left db.tasks _ _ _
            (by rw [← taskStatus?_eq_statusOf]; exact h4 cb0 hcb0)
        · intro cb0 hcb0 cb' hcb'
          rcases List.mem_append.mp hcb0 with hold | hnewc
          · exact h5 cb0 hold cb' hcb'
          · simp at hnewc
            rw [hnewc, ← hcb]
            simp only
            have hlt := statusOf_lt db.tasks db.nextId cb'.task_id _ h1
              (by rw [← taskStatus?_eq_statusOf]; exact h4 cb' hcb')
            omega
  | startCallback tid =>
    cases hq : q.find? (fun cb => cb.task_id == tid) with
    | none =>
      simp only [step, hq]
      exact ⟨h1, h2, h3, h4, h5⟩
    | some cb =>
      have hcbq : cb ∈ q := List.mem_of_find?_eq_some hq
      have hcbid : cb.task_id = tid := by simpa using List.find?_some hq
      have hpend := h3 cb hcbq
      rw [hcbid] at hpend
      obtain ⟨t0, hf, hst⟩ := statusOf_some_find db tid _ hpend
      simp only [step, hq]
      unfold execPhase1
      rw [hf]
      refine ⟨?_, h2, ?_, ?_, ?_⟩
      · intro t ht
        obtain ⟨u, hu, heq⟩ := updateTask_mem tid _ db.tasks t ht
        have : t.id = u.id := by
          rw [heq]; by_cases hc : (u.id == tid) = true <;> simp [hc, processingUpdate, failedUpdate, completedUpdate]
        rw [this]
        exact h1 u hu
      · intro cb0 hcb0
        obtain ⟨hmem, hne⟩ := mem_removeCb tid q cb0 hcb0
        rw [taskStatus?_eq_statusOf]
        simp only
        rw [statusOf_updateTask_ne db.tasks tid cb0.task_id processingUpdate (fun t => rfl) hne]
        rw [← taskStatus?_eq_statusOf]
        exact h3 cb0 hmem
      · intro cb0 hcb0
        rcases List.mem_append.mp hcb0 with hold | hnewc
        · have hne : cb0.task_id ≠ tid := by
            have := h5 cb hcbq cb0 hold
            rw [hcbid] at this
            exact fun hcontra => this hcontra.symm
          rw [taskStatus?_eq_statusOf]
          simp only
          rw [statusOf_updateTask_ne db.tasks tid cb0.task_id processingUpdate (fun t => rfl) hne]
          rw [← taskStatus?_eq_statusOf]
          exact h4 cb0 hold
        · simp at hnewc
          rw [hnewc, hcbid]
          rw [taskStatus?_eq_statusOf]
          simp only
          exact statusOf_updateTask_self db.tasks tid processingUpdate (fun t => rfl)
            .processing (fun t => rfl) _ hpend
      · intro cb0 hcb0 cb' hcb'
        obtain ⟨hmem, hne⟩ := mem_removeCb tid q cb0 hcb0
        rcases List.mem_append.mp hcb' with hold | hnewc
        · exact h5 cb0 hmem cb' hold
        · simp at hnewc
          rw [hnewc, hcbid]
          exact hne
  | finishCallback tid outcome now =>
    cases hrn : r.find? (fun cb => cb.task_id == tid) with
    | none =>
      simp only [step, hrn]
      exact ⟨h1, h2, h3, h4, h5⟩
    | some cb =>
      have hcbr : cb ∈ r := List.mem_of_find?_eq_some hrn
      have hcbid : cb.task_id = tid := by simpa using List.find?_some hrn
      have hproc := h4 cb hcbr
      rw [hcbid] at hproc
      obtain ⟨t0, hf, hst⟩ := statusOf_some_find db tid _ hproc
      have hqne : ∀ cb0 ∈ q, cb0.task_id ≠ tid := by
        intro cb0 h0
        have := h5 cb0 h0 cb hcbr
        rw [hcbid] at this
        exact this
      have hrne : ∀ cb0 ∈ removeCb tid r, cb0.task_id ≠ tid :=
        fun cb0 h0 => (mem_removeCb tid r cb0 h0).2
      have hrmem : ∀ cb0 ∈ removeCb tid r, cb0 ∈ r :=
        fun cb0 h0 => (mem_removeCb tid r cb0 h0).1
      simp only [step, hrn]
      unfold execPhase2
      rw [hf]
      cases outcome with
      | failure msg =>
        refine ⟨?_, h2, ?_, ?_, ?_⟩
        · intro t ht
          obtain ⟨u, hu, heq⟩ := updateTask_mem tid _ db.tasks t ht
          have : t.id = u.id := by
            rw [heq]; by_cases hc : (u.id == tid) = true <;> simp [hc, processingUpdate, failedUpdate, completedUpdate]
          rw [this]; exact h1 u hu
        · intro cb0 h0
          rw [taskStatus?_eq_statusOf]
          simp only
          rw [statusOf_updateTask_ne db.tasks tid cb0.task_id (failedUpdate msg now) (fun t => rfl) (hqne cb0 h0)]
          rw [← taskStatus?_eq_statusOf]
          exact h3 cb0 h0
        · intro cb0 h0
          rw [taskStatus?_eq_statusOf]
          simp only
          rw [statusOf_updateTask_ne db.tasks tid cb0.task_id (failedUpdate msg now) (fun t => rfl) (hrne cb0 h0)]
          rw [← taskStatus?_eq_statusOf]
          exact h4 cb0 (hrmem cb0 h0)
        · intro cb0 h0 cb' h'
          exact h5 cb0 h0 cb' (hrmem cb' h')
      | empty =>
        refine ⟨?_, h2, ?_, ?_, ?_⟩
        · intro t ht
          obtain ⟨u, hu, heq⟩ := updateTask_mem tid _ db.tasks t ht
          have : t.id = u.id := by
            rw [heq]; by_cases hc : (u.id == tid) = true <;> simp [hc, processingUpdate, failedUpdate, completedUpdate]
          rw [this]; exact h1 u hu
        · intro cb0 h0
          rw [taskStatus?_eq_statusOf]
          simp only
          rw [statusOf_updateTask_ne db.tasks tid cb0.task_id (failedUpdate "AI处理服务返回错误" now) (fun t => rfl) (hqne cb0 h0)]
          rw [← taskStatus?_eq_statusOf]
          exact h3 cb0 h0
        · intro cb0 h0
          rw [taskStatus?_eq_statusOf]
          simp only
          rw [statusOf_updateTask_ne db.tasks tid cb0.task_id (failedUpdate "AI处理服务返回错误" now) (fun t => rfl) (hrne cb0 h0)]
          rw [← taskStatus?_eq_statusOf]
          exact h4 cb0 (hrmem cb0 h0)
        · intro cb0 h0 cb' h'
          exact h5 cb0 h0 cb' (hrmem cb' h')
      | success rr =>
        refine ⟨?_, ?_, ?_, ?_, ?_⟩
        · intro t ht
          obtain ⟨u, hu, heq⟩ := updateTask_mem tid _ db.tasks t ht
          have : t.id = u.id := by
            rw [heq]; by_cases hc : (u.id == tid) = true <;> simp [hc, processingUpdate, failedUpdate, completedUpdate]
          rw [this]
          exact Nat.lt_succ_of_lt (h1 u hu)
        · intro i hi
          simp only at hi
          rcases List.mem_append.mp hi with hold | hnewi
          · exact Nat.lt_succ_of_lt (h2 i hold)
          · simp at hnewi
            rw [hnewi]
            exact Nat.lt_succ_self _
        · intro cb0 h0
          rw [taskStatus?_eq_statusOf]
          simp only
          rw [statusOf_updateTask_ne db.tasks tid cb0.task_id (completedUpdate db.nextId now) (fun t => rfl) (hqne cb0 h0)]
          rw [← taskStatus?_eq_statusOf]
          exact h3 cb0 h0
        · intro cb0 h0
          rw [taskStatus?_eq_statusOf]
          simp only
          rw [statusOf_updateTask_ne db.tasks tid cb0.task_id (completedUpdate db.nextId now) (fun t => rfl) (hrne cb0 h0)]
          rw [← taskStatus?_eq_statusOf]
          exact h4 cb0 (hrmem cb0 h0)
        · intro cb0 h0 cb' h'
          exact h5 cb0 h0 cb' (hrmem cb' h')
  | getStatus task_id user_id now =>
    have hdb := get_process_status_db task_id user_id now db
    cases hr : get_process_status task_id user_id now db with
    | ok v =>
      obtain ⟨a, db'⟩ := v
      rw [hr] at hdb
      simp only [resultDB] at hdb
      simp only [step, hr]
      rw [hdb]
      exact ⟨h1, h2, h3, h4, h5⟩
    | error v =>
      obtain ⟨er, db'⟩ := v
      rw [hr] at hdb
      simp only [resultDB] at hdb
      simp only [step, hr]
      rw [hdb]
      exact ⟨h1, h2, h3, h4, h5⟩
  | getResult task_id user_id =>
    have hdb := get_process_result_db task_id user_id db
    cases hr : get_process_result task_id user_id db with
    | ok v =>
      obtain ⟨a, db'⟩ := v
      rw [hr] at hdb
      simp only [resultDB] at hdb
      simp only [step, hr]
      rw [hdb]
      exact ⟨h1, h2, h3, h4, h5⟩
    | error v =>
      obtain ⟨er, db'⟩ := v
      rw [hr] at hdb
      simp only [resultDB] at hdb
      simp only [step, hr]
      rw [hdb]
      exact ⟨h1, h2, h3, h4, h5⟩
  | workDetail work_id user_id =>
    have hdb := get_work_detail_db work_id user_id db
    cases hr : get_work_detail work_id user_id db with
    | ok v =>
      obtain ⟨a, db'⟩ := v
      rw [hr] at hdb
      simp only [resultDB] at hdb
      simp only [step, hr]
      rw [hdb]
      exact ⟨h1, h2, h3, h4, h5⟩
    | error v =>
      obtain ⟨er, db'⟩ := v
      rw [hr] at hdb
      simp only [resultDB] at hdb
      simp only [step, hr]
      rw [hdb]
      exact ⟨h1, h2, h3, h4, h5⟩
  | saveWork req user_id =>
    obtain ⟨ht, hi, hn⟩ := save_work_db_shape req user_id db
    cases hr : save_work req user_id db with
    | ok v =>
      obtain ⟨a, db'⟩ := v
      rw [hr] at ht hi hn
      simp only [resultDB] at ht hi hn
      simp only [step, hr]
      exact wf_db_only db q r db' ⟨h1, h2, h3, h4, h5⟩ ht hn (fun i hid => Or.inr (hi ▸ hid))
    | error v =>
      obtain ⟨er, db'⟩ := v
      rw [hr] at ht hi hn
      simp only [resultDB] at ht hi hn
      simp only [step, hr]
      exact wf_db_only db q r db' ⟨h1, h2, h3, h4, h5⟩ ht hn (fun i hid => Or.inr (hi ▸ hid))
  | deleteWork work_id user_id =>
    obtain ⟨ht, hi, hn⟩ := delete_work_db_shape work_id user_id db
    cases hr : delete_work work_id user_id db with
    | ok v =>
      obtain ⟨a, db'⟩ := v
      rw [hr] at ht hi hn
      simp only [resultDB] at ht hi hn
      simp only [step, hr]
      exact wf_db_only db q r db' ⟨h1, h2, h3, h4, h5⟩ ht hn (fun i hid => Or.inr (hi ▸ hid))
    | error v =>
      obtain ⟨er, db'⟩ := v
      rw [hr] at ht hi hn
      simp only [resultDB] at ht hi hn
      simp only [step, hr]
      exact wf_db_only db q r db' ⟨h1, h2, h3, h4, h5⟩ ht hn (fun i hid => Or.inr (hi ▸ hid))
  | batchDeleteWorks work_ids user_id =>
    obtain ⟨ht, hi, hn⟩ := batch_delete_works_db_shape work_ids user_id db
    cases hr : batch_delete_works work_ids user_id db with
    | ok v =>
      obtain ⟨a, db'⟩ := v
      rw [hr] at ht hi hn
      simp only [resultDB] at ht hi hn
      simp only [step, hr]
      exact wf_db_only db q r db' ⟨h1, h2, h3, h4, h5⟩ ht hn (fun i hid => Or.inr (hi ▸ hid))
    | error v =>
      obtain ⟨er, db'⟩ := v
      rw [hr] at ht hi hn
      simp only [resultDB] at ht hi hn
      simp only [step, hr]
      exact wf_db_only db q r db' ⟨h1, h2, h3, h4, h5⟩ ht hn (fun i hid => Or.inr (hi ▸ hid))

/-- The `tasks` table after one event, as a function of the one before:
unchanged, extended by the fresh PENDING task of `process_image_task`, or
rewritten at one id by a phase of `execute_image_processing`. -/
theorem step_tasks_cases (s : SysState) (e : Event) :
    (step e s).1.db.tasks = s.db.tasks ∨
    (∃ t, (step e s).1.db.tasks = s.db.tasks ++ [t] ∧ t.status = .pending ∧
       ((∀ u ∈ s.db.tasks, u.id < s.db.nextId) → t.id = s.db.nextId)) ∨
    (∃ tid, (step e s).1.db.tasks = updateTask tid processingUpdate s.db.tasks ∧
       (Wf s → taskStatus? s.db tid = some .pending)) ∨
    (∃ tid msg now, (step e s).1.db.tasks =
       updateTask tid (failedUpdate msg now) s.db.tasks ∧
       (Wf s → taskStatus? s.db tid = some .processing)) ∨
    (∃ tid pid now, (step e s).1.db.tasks =
       updateTask tid (completedUpdate pid now) s.db.tasks ∧
       (Wf s → taskStatus? s.db tid = some .processing)) := by
  obtain ⟨db, q, r⟩ := s
  cases e with
  | sendCode phone now =>
    exact Or.inl (send_verification_code_db_shape phone now db).1
  | guest now =>
    exact Or.inl (create_guest_user_db_shape now db).1
  | loginPhone p c now =>
    have := (login_with_phone_db_shape p c now db).1
    cases hr : login_with_phone p c now db with
    | ok v =>
      obtain ⟨a, db'⟩ := v
      rw [hr] at this
      simp only [resultDB] at this
      simp only [step, hr]
      exact Or.inl this
    | error v =>
      obtain ⟨er, db'⟩ := v
      rw [hr] at this
      simp only [resultDB] at this
      simp only [step, hr]
      exact Or.inl this
  | upload files uid now =>
    obtain ⟨new, hshape, _⟩ := upload_images_db_shape files uid now db
    cases hr : upload_images files uid now db with
    | ok v =>
      obtain ⟨a, db'⟩ := v
      rw [hr] at hshape
      simp only [resultDB] at hshape
      simp only [step, hr]
      exact Or.inl (by rw [hshape])
    | error v =>
      obtain ⟨er, db'⟩ := v
      rw [hr] at hshape
      simp only [resultDB] at hshape
      simp only [step, hr]
      exact Or.inl (by rw [hshape])
  | processImage req uid now =>
    cases hr : process_image_task req uid now db with
    | error v =>
      obtain ⟨er, db'⟩ := v
      obtain ⟨_, hdb⟩ := process_image_task_error_shape req uid now db db' er hr
      simp only [step, hr]
      exact Or.inl (by rw [hdb])
    | ok v =>
      obtain ⟨⟨resp, cb⟩, db'⟩ := v
      have hr' := hr
      unfold process_image_task at hr'
      cases hfi : db.images.find? (fun i => i.id == req.imageId && i.user_id == uid) with
      | none => simp [hfi] at hr'
      | some image =>
        simp only [hfi, Except.ok.injEq, Prod.mk.injEq] at hr'
        obtain ⟨⟨hresp, hcb⟩, hdb⟩ := hr'
        simp only [step, hr]
        rw [← hdb]
        exact Or.inr (Or.inl ⟨_, rfl, rfl, fun _ => rfl⟩)
  | startCallback tid =>
    cases hq : q.find? (fun cb => cb.task_id == tid) with
    | none =>
      exact Or.inl (by simp [step, hq])
    | some cb =>
      simp only [step, hq]
      unfold execPhase1
      cases hf : findTask? db tid with
      | none => exact Or.inl rfl
      | some t0 =>
        refine Or.inr (Or.inr (Or.inl ⟨tid, rfl, fun hW => ?_⟩))
        have hcbq : cb ∈ q := List.mem_of_find?_eq_some hq
        have hcbid : cb.task_id = tid := by simpa using List.find?_some hq
        have hp := hW.2.2.1 cb hcbq
        rwa [hcbid] at hp
  | finishCallback tid outcome now =>
    cases hrn : r.find? (fun cb => cb.task_id == tid) with
    | none =>
      exact Or.inl (by simp [step, hrn])
    | some cb =>
      simp only [step, hrn]
      unfold execPhase2
      cases hf : findTask? db tid with
      | none => exact Or.inl rfl
      | some t0 =>
        have hcbr : cb ∈ r := List.mem_of_find?_eq_some hrn
        have hcbid : cb.task_id = tid := by simpa using List.find?_some hrn
        have hpr : Wf ⟨db, q, r⟩ → taskStatus? db tid = some .processing := by
          intro hW
          have hp := hW.2.2.2.1 cb hcbr
          rwa [hcbid] at hp
        cases outcome with
        | failure msg => exact Or.inr (Or.inr (Or.inr (Or.inl ⟨tid, msg, now, rfl, hpr⟩)))
        | empty => exact Or.inr (Or.inr (Or.inr (Or.inl ⟨tid, _, now, rfl, hpr⟩)))
        | success rr => exact Or.inr (Or.inr (Or.inr (Or.inr ⟨tid, db.nextId, now, rfl, hpr⟩)))
  | getStatus task_id user_id now =>
    have hdb := get_process_status_db task_id user_id now db
    cases hr : get_process_status task_id user_id now db with
    | ok v =>
      obtain ⟨a, db'⟩ := v
      rw [hr] at hdb
      simp only [resultDB] at hdb
      simp only [step, hr]
      exact Or.inl (by rw [hdb])
    | error v =>
      obtain ⟨er, db'⟩ := v
      rw [hr] at hdb
      simp only [resultDB] at hdb
      simp only [step, hr]
      exact Or.inl (by rw [hdb])
  | getResult task_id user_id =>
    have hdb := get_process_result_db task_id user_id db
    cases hr : get_process_result task_id user_id db with
    | ok v =>
      obtain ⟨a, db'⟩ := v
      rw [hr] at hdb
      simp only [resultDB] at hdb
      simp only [step, hr]
      exact Or.inl (by rw [hdb])
    | error v =>
      obtain ⟨er, db'⟩ := v
      rw [hr] at hdb
      simp only [resultDB] at hdb
      simp only [step, hr]
      exact Or.inl (by rw [hdb])
  | workDetail work_id user_id =>
    have hdb := get_work_detail_db work_id user_id db
    cases hr : get_work_detail work_id user_id db with
    | ok v =>
      obtain ⟨a, db'⟩ := v
      rw [hr] at hdb
      simp only [resultDB] at hdb
      simp only [step, hr]
      exact Or.inl (by rw [hdb])
    | error v =>
      obtain ⟨er, db'⟩ := v
      rw [hr] at hdb
      simp only [resultDB] at hdb
      simp only [step, hr]
      exact Or.inl (by rw [hdb])
  | saveWork req user_id =>
    have := (save_work_db_shape req user_id db).1
    cases hr : save_work req user_id db with
    | ok v =>
      obtain ⟨a, db'⟩ := v
      rw [hr] at this
      simp only [resultDB] at this
      simp only [step, hr]
      exact Or.inl this
    | error v =>
      obtain ⟨er, db'⟩ := v
      rw [hr] at this
      simp only [resultDB] at this
      simp only [step, hr]
      exact Or.inl this
  | deleteWork work_id user_id =>
    have := (delete_work_db_shape work_id user_id db).1
    cases hr : delete_work work_id user_id db with
    | ok v =>
      obtain ⟨a, db'⟩ := v
      rw [hr] at this
      simp only [resultDB] at this
      simp only [step, hr]
      exact Or.inl this
    | error v =>
      obtain ⟨er, db'⟩ := v
      rw [hr] at this
      simp only [resultDB] at this
      simp only [step, hr]
      exact Or.inl this
  | batchDeleteWorks work_ids user_id =>
    have := (batch_delete_works_db_shape work_ids user_id db).1
    cases hr : batch_delete_works work_ids user_id db with
    | ok v =>
      obtain ⟨a, db'⟩ := v
      rw [hr] at this
      simp only [resultDB] at this
      simp only [step, hr]
      exact Or.inl this
    | error v =>
      obtain ⟨er, db'⟩ := v
      rw [hr] at this
      simp only [resultDB] at this
      simp only [step, hr]
      exact Or.inl this

theorem statusOf_ne_none_of_mem (tasks : List ProcessTask) (t : ProcessTask)
    (ht : t ∈ tasks) : statusOf tasks t.id ≠ none := by
  unfold statusOf
  cases hf : tasks.find? (fun u => u.id == t.id) with
  | some u => simp
  | none =>
    rw [List.find?_eq_none] at hf
    have := hf t ht
    simp at this

/-- One event moves each task's status at most one arrow along
PENDING → PROCESSING → (COMPLETED | FAILED), or not at all. -/
theorem step_status_transition (s : SysState) (e : Event) (hW : Wf s) (tid : Nat)
    (st st' : TaskStatus) (hbef : taskStatus? s.db tid = some st)
    (haft : taskStatus? (step e s).1.db tid = some st') : statusStepOK st st' := by
  rw [taskStatus?_eq_statusOf] at hbef haft
  rcases step_tasks_cases s e with hsame | ⟨t, hap, hpend, hfresh⟩ |
    ⟨tid', hup, hpre⟩ | ⟨tid', msg, now, hup, hpre⟩ | ⟨tid', pid, now, hup, hpre⟩
  · rw [hsame, hbef] at haft
    exact Or.inl (Option.some.inj haft)
  · rw [hap] at haft
    have := (statusOf_append_left s.db.tasks [t] tid st hbef).symm.trans haft
    exact Or.inl (Option.some.inj this)
  · by_cases hc : tid = tid'
    · subst hc
      have hpending := hpre hW
      rw [taskStatus?_eq_statusOf] at hpending
      have hstp : st = .pending := by
        rw [hbef] at hpending
        exact Option.some.inj hpending
      have haft2 := statusOf_updateTask_self s.db.tasks tid processingUpdate
        (fun t => rfl) .processing (fun t => rfl) _ hpending
      rw [hup] at haft
      have := haft2.symm.trans haft
      exact Or.inr (Or.inl ⟨hstp, (Option.some.inj this).symm⟩)
    · rw [hup, statusOf_updateTask_ne s.db.tasks tid' tid processingUpdate
          (fun t => rfl) hc, hbef] at haft
      exact Or.inl (Option.some.inj haft)
  · by_cases hc : tid = tid'
    · subst hc
      have hprocessing := hpre hW
      rw [taskStatus?_eq_statusOf] at hprocessing
      have hstp : st = .processing := by
        rw [hbef] at hprocessing
        exact Option.some.inj hprocessing
      have haft2 := statusOf_updateTask_self s.db.tasks tid (failedUpdate msg now)
        (fun t => rfl) .failed (fun t => rfl) _ hprocessing
      rw [hup] at haft
      have := haft2.symm.trans haft
      exact Or.inr (Or.inr ⟨hstp, Or.inr (Option.some.inj this).symm⟩)
    · rw [hup, statusOf_updateTask_ne s.db.tasks tid' tid (failedUpdate msg now)
          (fun t => rfl) hc, hbef] at haft
      exact Or.inl (Option.some.inj haft)
  · by_cases hc : tid = tid'
    · subst hc
      have hprocessing := hpre hW
      rw [taskStatus?_eq_statusOf] at hprocessing
      have hstp : st = .processing := by
        rw [hbef] at hprocessing
        exact Option.some.inj hprocessing
      have haft2 := statusOf_updateTask_self s.db.tasks tid (completedUpdate pid now)
        (fun t => rfl) .completed (fun t => rfl) _ hprocessing
      rw [hup] at haft
      have := haft2.symm.trans haft
      exact Or.inr (Or.inr ⟨hstp, Or.inl (Option.some.inj this).symm⟩)
    · rw [hup, statusOf_updateTask_ne s.db.tasks tid' tid (completedUpdate pid now)
          (fun t => rfl) hc, hbef] at haft
      exact Or.inl (Option.some.inj haft)

/-- Any task row an event brings into existence is in state PENDING. -/
theorem step_new_task_pending (s : SysState) (e : Event) (t' : ProcessTask)
    (hmem : t' ∈ (step e s).1.db.tasks) (hnew : taskStatus? s.db t'.id = none) :
    t'.status = .pending := by
  rw [taskStatus?_eq_statusOf] at hnew
  rcases step_tasks_cases s e with hsame | ⟨t, hap, hpend, _⟩ |
    ⟨tid', hup, _⟩ | ⟨tid', msg, now, hup, _⟩ | ⟨tid', pid, now, hup, _⟩
  · rw [hsame] at hmem
    exact absurd hnew (statusOf_ne_none_of_mem _ _ hmem)
  · rw [hap] at hmem
    rcases List.mem_append.mp hmem with hold | hnewt
    · exact absurd hnew (statusOf_ne_none_of_mem _ _ hold)
    · simp at hnewt
      rw [hnewt]
      exact hpend
  · rw [hup] at hmem
    obtain ⟨u, hu, heq⟩ := updateTask_mem tid' _ s.db.tasks t' hmem
    have hid : t'.id = u.id := by
      rw [heq]; by_cases hc : (u.id == tid') = true <;> simp [hc, processingUpdate]
    rw [hid] at hnew
    exact absurd hnew (statusOf_ne_none_of_mem _ _ hu)
  · rw [hup] at hmem
    obtain ⟨u, hu, heq⟩ := updateTask_mem tid' _ s.db.tasks t' hmem
    have hid : t'.id = u.id := by
      rw [heq]; by_cases hc : (u.id == tid') = true <;> simp [hc, failedUpdate]
    rw [hid] at hnew
    exact absurd hnew (statusOf_ne_none_of_mem _ _ hu)
  · rw [hup] at hmem
    obtain ⟨u, hu, heq⟩ := updateTask_mem tid' _ s.db.tasks t' hmem
    have hid : t'.id = u.id := by
      rw [heq]; by_cases hc : (u.id == tid') = true <;> simp [hc, completedUpdate]
    rw [hid] at hnew
    exact absurd hnew (statusOf_ne_none_of_mem _ _ hu)

/-- No event ever rewrites a task's `user_id` or `image_id`, and no task
row is ever deleted. -/
theorem step_task_fields (s : SysState) (e : Event) (t : ProcessTask)
    (ht : t ∈ s.db.tasks) :
    ∃ t' ∈ (step e s).1.db.tasks, t'.id = t.id ∧ t'.user_id = t.user_id ∧
      t'.image_id = t.image_id := by
  rcases step_tasks_cases s e with hsame | ⟨u, hap, _, _⟩ |
    ⟨tid', hup, _⟩ | ⟨tid', msg, now, hup, _⟩ | ⟨tid', pid, now, hup, _⟩
  · exact ⟨t, by rw [hsame]; exact ht, rfl, rfl, rfl⟩
  · exact ⟨t, by rw [hap]; exact List.mem_append_left _ ht, rfl, rfl, rfl⟩
  · refine ⟨if t.id == tid' then processingUpdate t else t,
      by rw [hup]; unfold updateTask; exact List.mem_map_of_mem _ ht, ?_, ?_, ?_⟩ <;>
      by_cases hc : (t.id == tid') = true <;> simp [hc, processingUpdate]
  · refine ⟨if t.id == tid' then failedUpdate msg now t else t,
      by rw [hup]; unfold updateTask; exact List.mem_map_of_mem _ ht, ?_, ?_, ?_⟩ <;>
      by_cases hc : (t.id == tid') = true <;> simp [hc, failedUpdate]
  · refine ⟨if t.id == tid' then completedUpdate pid now t else t,
      by rw [hup]; unfold updateTask; exact List.mem_map_of_mem _ ht, ?_, ?_, ?_⟩ <;>
      by_cases hc : (t.id == tid') = true <;> simp [hc, completedUpdate]

/-! ## Concrete instances used to exercise the theorems -/

/-- A stored image owned by user 0. -/
def imageEx : Image :=
  { id := 1, user_id := 0, filename := "a.jpg"
    url := "https://oss.lumina.example/0/1.jpg"
    width := 10, height := 10, size := 5, format := .jpg, uploaded_at := 0 }

/-- A one-user, one-image database. -/
def dbEx : DB := { users := [{ id := 0 }], images := [imageEx], nextId := 2 }

/-- The idle system over `dbEx`. -/
def sEx : SysState := { db := dbEx }

/-- A processing request against `imageEx`. -/
def reqEx : ProcessImageRequest := { imageId := 1, operations := [{ type := .cutout }] }

/-- A phone number of the accepted `1[3-9]xxxxxxxxx` shape. -/
def phoneEx : String := "13800000000"

/-- `dbEx` after one `send-code` request for `phoneEx` at time 0. -/
def dbOneCode : DB := (send_verification_code phoneEx 0 dbEx).2

/-- `dbEx` after two `send-code` requests for `phoneEx` at time 0: two
unused, unexpired rows both carrying the mock code. -/
def dbTwoCodes : DB :=
  (send_verification_code phoneEx 0 (send_verification_code phoneEx 0 dbEx).2).2

/-- Whether a phone login attempt succeeds. -/
def loginOk (phone code : String) (now : Nat) (db : DB) : Bool :=
  match login_with_phone phone code now db with
  | .ok _ => true
  | .error _ => false

/-- The database a phone login attempt leaves behind. -/
def dbAfterLogin (phone code : String) (now : Nat) (db : DB) : DB :=
  resultDB (login_with_phone phone code now db)

/-! ## The claims -/

/-- C1: a `ProcessTask.status` ranges over the four members of
`TaskStatus` (the enum the column is typed with); a task is created
PENDING, and one system event moves a task's status only along
PENDING → PROCESSING → (COMPLETED | FAILED) — in particular COMPLETED and
FAILED are never left, and they are only entered from PROCESSING.  The
system invariant is preserved, so this holds along every run. -/
theorem C1_task_status_machine (s : SysState) (e : Event) (h : Wf s) :
    Wf (step e s).1 ∧
    (∀ t' ∈ (step e s).1.db.tasks,
       taskStatus? s.db t'.id = none → t'.status = .pending) ∧
    (∀ tid st st', taskStatus? s.db tid = some st →
       taskStatus? (step e s).1.db tid = some st' → statusStepOK st st') :=
  ⟨wf_step s e h,
   fun t' hm hn => step_new_task_pending s e t' hm hn,
   fun tid st st' hb ha => step_status_transition s e h tid st st' hb ha⟩

/-- Witness for C1: creating a task over the one-image database. -/
theorem C1_witness :
    Wf (step (.processImage reqEx 0 100) sEx).1 ∧
    (∀ t' ∈ (step (.processImage reqEx 0 100) sEx).1.db.tasks,
       taskStatus? sEx.db t'.id = none → t'.status = .pending) ∧
    (∀ tid st st', taskStatus? sEx.db tid = some st →
       taskStatus? (step (.processImage reqEx 0 100) sEx).1.db tid = some st' →
       statusStepOK st st') :=
  C1_task_status_machine sEx (.processImage reqEx 0 100) (by decide)

/-- C2: `login_with_phone` raises `UnauthorizedException` exactly when
no stored verification row for the phone carries the given code, unused
and unexpired at call time; otherwise it returns an access token, a
refresh token and the found-or-created user's profile. -/
theorem C2_login_with_phone_auth (phone code : String) (now : Nat) (db : DB) :
    (findVerification? phone code now db.codes = none →
       login_with_phone phone code now db =
         .error (.unauthorized "验证码错误或已过期", db)) ∧
    (findVerification? phone code now db.codes ≠ none →
       ∃ resp db', login_with_phone phone code now db = .ok (resp, db') ∧
         resp.token = create_access_token resp.user.id ∧
         resp.refreshToken = create_refresh_token resp.user.id ∧
         ∃ u ∈ db'.users, u.phone_number = some phone ∧
           resp.user = userProfileOf u) := by
  constructor
  · intro hnone
    unfold login_with_phone verify_code
    rw [hnone]
  · intro hsome
    cases hf : findVerification? phone code now db.codes with
    | none => exact absurd hf hsome
    | some v =>
      simp only [login_with_phone, verify_code, hf]
      cases hu : List.find? (fun u => u.phone_number == some phone) db.users with
      | some user =>
        simp only [hu]
        refine ⟨mkLoginResponse user false, _, rfl, rfl, rfl, user, ?_, ?_, rfl⟩
        · exact List.mem_of_find?_eq_some hu
        · simpa using List.find?_some hu
      | none =>
        simp only [hu]
        exact ⟨_, _, rfl, rfl, rfl,
          { id := db.nextId, phone_number := some phone
            membership_type := .free, created_at := now },
          List.mem_append_right _ (List.mem_singleton.mpr rfl), rfl, rfl⟩

/-- C3: the reads and delete on tasks and works look the resource up
by id and owner together, so a missing resource and a foreign resource
alike surface as `NotFoundException`; a successful call implies the
caller owns the resource; and no rejected call changes the database (the
error carries the database exactly as passed in). -/
theorem C3_ownership_checks (task_id work_id user_id now : Nat) (db : DB) :
    ((∀ t ∈ db.tasks, t.id = task_id → t.user_id ≠ user_id) →
       get_process_status task_id user_id now db = .error (.notFound "任务不存在", db) ∧
       get_process_result task_id user_id db = .error (.notFound "任务不存在", db)) ∧
    ((∀ w ∈ db.works, w.id = work_id → w.user_id ≠ user_id) →
       get_work_detail work_id user_id db = .error (.notFound "作品不存在", db) ∧
       delete_work work_id user_id db = .error (.notFound "作品不存在", db)) ∧
    (∀ out db', get_process_status task_id user_id now db = .ok (out, db') →
       db' = db ∧ ∃ t ∈ db.tasks, t.id = task_id ∧ t.user_id = user_id) ∧
    (∀ out db', get_process_result task_id user_id db = .ok (out, db') →
       db' = db ∧ ∃ t ∈ db.tasks, t.id = task_id ∧ t.user_id = user_id) ∧
    (∀ out db', get_work_detail work_id user_id db = .ok (out, db') →
       db' = db ∧ ∃ w ∈ db.works, w.id = work_id ∧ w.user_id = user_id) ∧
    (∀ out db', delete_work work_id user_id db = .ok (out, db') →
       ∃ w ∈ db.works, w.id = work_id ∧ w.user_id = user_id) ∧
    (∀ er db', get_process_status task_id user_id now db = .error (er, db') → db' = db) ∧
    (∀ er db', get_process_result task_id user_id db = .error (er, db') → db' = db) ∧
    (∀ er db', get_work_detail work_id user_id db = .error (er, db') → db' = db) ∧
    (∀ er db', delete_work work_id user_id db = .error (er, db') → db' = db) := by
  have htasknone : (∀ t ∈ db.tasks, t.id = task_id → t.user_id ≠ user_id) →
      db.tasks.find? (fun t => t.id == task_id && t.user_id == user_id) = none := by
    intro hno
    rw [List.find?_eq_none]
    intro t htm hp
    simp only [Bool.and_eq_true, beq_iff_eq] at hp
    exact hno t htm hp.1 hp.2
  have hworknone : (∀ w ∈ db.works, w.id = work_id → w.user_id ≠ user_id) →
      db.works.find? (fun w => w.id == work_id && w.user_id == user_id) = none := by
    intro hno
    rw [List.find?_eq_none]
    intro w hwm hp
    simp only [Bool.and_eq_true, beq_iff_eq] at hp
    exact hno w hwm hp.1 hp.2
  have htasksome : ∀ t, db.tasks.find? (fun t => t.id == task_id && t.user_id == user_id) =
      some t → t ∈ db.tasks ∧ t.id = task_id ∧ t.user_id = user_id := by
    intro t hfs
    have hp := List.find?_some hfs
    simp only [Bool.and_eq_true, beq_iff_eq] at hp
    exact ⟨List.mem_of_find?_eq_some hfs, hp.1, hp.2⟩
  have hworksome : ∀ w, db.works.find? (fun w => w.id == work_id && w.user_id == user_id) =
      some w → w ∈ db.works ∧ w.id = work_id ∧ w.user_id = user_id := by
    intro w hfs
    have hp := List.find?_some hfs
    simp only [Bool.and_eq_true, beq_iff_eq] at hp
    exact ⟨List.mem_of_find?_eq_some hfs, hp.1, hp.2⟩
  refine ⟨?_, ?_, ?_, ?_, ?_, ?_, ?_, ?_, ?_, ?_⟩
  · intro hno
    constructor
    · unfold get_process_status
      rw [htasknone hno]
    · unfold get_process_result
      rw [htasknone hno]
  · intro hno
    constructor
    · unfold get_work_detail
      rw [hworknone hno]
    · unfold delete_work
      rw [hworknone hno]
  · intro out db' hok
    unfold get_process_status at hok
    cases hx : db.tasks.find? (fun t => t.id == task_id && t.user_id == user_id) with
    | none => simp [hx] at hok
    | some t =>
      obtain ⟨hm, h1, h2⟩ := htasksome t hx
      simp only [hx, Except.ok.injEq, Prod.mk.injEq] at hok
      exact ⟨hok.2.symm, t, hm, h1, h2⟩
  · intro out db' hok
    unfold get_process_result at hok
    cases hx : db.tasks.find? (fun t => t.id == task_id && t.user_id == user_id) with
    | none => simp [hx] at hok
    | some t =>
      obtain ⟨hm, h1, h2⟩ := htasksome t hx
      refine ⟨?_, t, hm, h1, h2⟩
      simp only [hx] at hok
      by_cases hs : (t.status != TaskStatus.completed && t.status != TaskStatus.failed) = true
      · rw [if_pos hs] at hok
        simp at hok
      · rw [if_neg hs] at hok
        cases hy : db.images.find? (fun i => i.id == t.image_id) with
        | none => simp [hy] at hok
        | some src =>
          simp only [hy] at hok
          by_cases hfail : (t.status == TaskStatus.failed) = true
          · rw [if_pos hfail] at hok
            simp only [Except.ok.injEq, Prod.mk.injEq] at hok
            exact hok.2.symm
          · rw [if_neg hfail] at hok
            cases hz : db.images.find? (fun i => t.result_image_id == some i.id) with
            | none => simp [hz] at hok
            | some res =>
              simp only [hz, Except.ok.injEq, Prod.mk.injEq] at hok
              exact hok.2.symm
  · intro out db' hok
    unfold get_work_detail at hok
    cases hx : db.works.find? (fun w => w.id == work_id && w.user_id == user_id) with
    | none => simp [hx] at hok
    | some w =>
      obtain ⟨hm, h1, h2⟩ := hworksome w hx
      refine ⟨?_, w, hm, h1, h2⟩
      simp only [hx] at hok
      cases hy : db.images.find? (fun i => i.id == w.processed_image_id) with
      | none => simp [hy] at hok
      | some proc =>
        simp only [hy, Except.ok.injEq, Prod.mk.injEq] at hok
        exact hok.2.symm
  · intro out db' hok
    unfold delete_work at hok
    cases hx : db.works.find? (fun w => w.id == work_id && w.user_id == user_id) with
    | none => simp [hx] at hok
    | some w =>
      obtain ⟨hm, h1, h2⟩ := hworksome w hx
      exact ⟨w, hm, h1, h2⟩
  · intro er db' herr
    exact (get_process_status_error_shape task_id user_id now db db' er herr).2
  · intro er db' herr
    exact (get_process_result_error_shape task_id user_id db db' er herr).2
  · intro er db' herr
    exact (get_work_detail_error_shape work_id user_id db db' er herr).2
  · intro er db' herr
    exact (delete_work_error_shape work_id user_id db db' er herr).2

/-! ## Which HTTP statuses the system can actually produce -/

/-- The HTTP status of the error one event surfaces, if any. -/
def errStatus (e : Event) (s : SysState) : Option Nat :=
  ((step e s).2).map LuminaError.status_code

/-- An HTTP status is reachable when some event in some state produces
an error carrying it. -/
def ReachableStatus (c : Nat) : Prop := ∃ e s, errStatus e s = some c

/-- Every error any event surfaces is a 400, a 401 or a 404. -/
theorem step_err_status (e : Event) (s : SysState) (er : LuminaError)
    (h : (step e s).2 = some er) :
    er.status_code = 400 ∨ er.status_code = 401 ∨ er.status_code = 404 := by
  obtain ⟨db, q, r⟩ := s
  cases e with
  | sendCode phone now => simp [step] at h
  | guest now => simp [step] at h
  | loginPhone p c now =>
    cases hr : login_with_phone p c now db with
    | ok v =>
      obtain ⟨a, d⟩ := v
      simp [step, hr] at h
    | error v =>
      obtain ⟨er2, d⟩ := v
      simp only [step, hr] at h
      obtain ⟨he, _⟩ := login_with_phone_error_shape p c now db d er2 hr
      simp at h
      rw [← h, he]
      exact Or.inr (Or.inl rfl)
  | upload files uid now =>
    cases hr : upload_images files uid now db with
    | ok v =>
      obtain ⟨a, d⟩ := v
      simp [step, hr] at h
    | error v =>
      obtain ⟨er2, d⟩ := v
      simp only [step, hr] at h
      obtain ⟨m, hm⟩ := upload_images_error_badRequest files uid now db er2 d hr
      simp at h
      rw [← h, hm]
      exact Or.inl rfl
  | processImage req uid now =>
    cases hr : process_image_task req uid now db with
    | ok v =>
      obtain ⟨a, d⟩ := v
      simp [step, hr] at h
    | error v =>
      obtain ⟨er2, d⟩ := v
      simp only [step, hr] at h
      obtain ⟨he, _⟩ := process_image_task_error_shape req uid now db d er2 hr
      simp at h
      rw [← h, he]
      exact Or.inr (Or.inr rfl)
  | startCallback tid =>
    cases hq : q.find? (fun cb => cb.task_id == tid) <;> simp [step, hq] at h
  | finishCallback tid outcome now =>
    cases hrn : r.find? (fun cb => cb.task_id == tid) <;> simp [step, hrn] at h
  | getStatus task_id user_id now =>
    cases hr : get_process_status task_id user_id now db with
    | ok v =>
      obtain ⟨a, d⟩ := v
      simp [step, hr] at h
    | error v =>
      obtain ⟨er2, d⟩ := v
      simp only [step, hr] at h
      obtain ⟨he, _⟩ := get_process_status_error_shape task_id user_id now db d er2 hr
      simp at h
      rw [← h, he]
      exact Or.inr (Or.inr rfl)
  | getResult task_id user_id =>
    cases hr : get_process_result task_id user_id db with
    | ok v =>
      obtain ⟨a, d⟩ := v
      simp [step, hr] at h
    | error v =>
      obtain ⟨er2, d⟩ := v
      simp only [step, hr] at h
      obtain ⟨he, _⟩ := get_process_result_error_shape task_id user_id db d er2 hr
      simp at h
      rcases he with he | he | he | he <;> rw [← h, he]
      · exact Or.inr (Or.inr rfl)
      · exact Or.inl rfl
      · exact Or.inr (Or.inr rfl)
      · exact Or.inr (Or.inr rfl)
  | workDetail work_id user_id =>
    cases hr : get_work_detail work_id user_id db with
    | ok v =>
      obtain ⟨a, d⟩ := v
      simp [step, hr] at h
    | error v =>
      obtain ⟨er2, d⟩ := v
      simp only [step, hr] at h
      obtain ⟨he, _⟩ := get_work_detail_error_shape work_id user_id db d er2 hr
      simp at h
      rcases he with he | he <;> rw [← h, he] <;> exact Or.inr (Or.inr rfl)
  | saveWork req user_id =>
    cases hr : save_work req user_id db with
    | ok v =>
      obtain ⟨a, d⟩ := v
      simp [step, hr] at h
    | error v =>
      obtain ⟨er2, d⟩ := v
      simp only [step, hr] at h
      obtain ⟨he, _⟩ := save_work_error_shape req user_id db d er2 hr
      simp at h
      rw [← h, he]
      exact Or.inr (Or.inr rfl)
  | deleteWork work_id user_id =>
    cases hr : delete_work work_id user_id db with
    | ok v =>
      obtain ⟨a, d⟩ := v
      simp [step, hr] at h
    | error v =>
      obtain ⟨er2, d⟩ := v
      simp only [step, hr] at h
      obtain ⟨he, _⟩ := delete_work_error_shape work_id user_id db d er2 hr
      simp at h
      rw [← h, he]
      exact Or.inr (Or.inr rfl)
  | batchDeleteWorks work_ids user_id =>
    cases hr : batch_delete_works work_ids user_id db with
    | ok v =>
      obtain ⟨a, d⟩ := v
      simp [step, hr] at h
    | error v =>
      obtain ⟨er2, d⟩ := v
      simp only [step, hr] at h
      obtain ⟨he, _⟩ := batch_delete_works_error_shape work_ids user_id db d er2 hr
      simp at h
      rw [← h, he]
      exact Or.inl rfl

/-- `TooManyRequestsException` is declared and imported but never raised:
no event can surface a 429. -/
theorem tooManyRequests_unreachable : ¬ ReachableStatus 429 := by
  rintro ⟨e, s, h⟩
  unfold errStatus at h
  cases hstep : (step e s).2 with
  | none => rw [hstep] at h; simp at h
  | some er =>
    rw [hstep] at h
    simp at h
    rcases step_err_status e s er hstep with h4 | h4 | h4 <;> omega

/-- C4 counterexample: the claim says every one of the five statuses,
including 429, is produced by some reachable operation; in fact no
operation of the system ever surfaces a 429 (`TooManyRequestsException`
is defined and imported but never raised). -/
theorem C4_counterexample_429_unreachable : ReachableStatus 429 = False :=
  eq_false tooManyRequests_unreachable

/-- C4 amended: every `LuminaException` maps into
\x7b400, 401, 404, 429, 500\x7d and is rendered as the uniform envelope
carrying its error code and message; 400, 401 and 404 are each produced
by a reachable operation; but 429 is never produced. -/
theorem C4_amended_error_model :
    (∀ er : LuminaError, er.status_code = 400 ∨ er.status_code = 401 ∨
       er.status_code = 404 ∨ er.status_code = 429 ∨ er.status_code = 500) ∧
    (∀ er : LuminaError,
       (lumina_exception_handler er).1 = er.status_code ∧
       (lumina_exception_handler er).2.error.code = er.error_code ∧
       (lumina_exception_handler er).2.error.message = er.message) ∧
    ReachableStatus 400 ∧ ReachableStatus 401 ∧ ReachableStatus 404 ∧
    ¬ ReachableStatus 429 := by
  refine ⟨?_, ?_, ?_, ?_, ?_, tooManyRequests_unreachable⟩
  · intro er
    cases er <;> simp [LuminaError.status_code]
  · intro er
    exact ⟨rfl, rfl, rfl⟩
  · exact ⟨.batchDeleteWorks [0] 0, ⟨{}, [], []⟩, rfl⟩
  · exact ⟨.loginPhone phoneEx "123456" 0, ⟨{}, [], []⟩, rfl⟩
  · exact ⟨.getStatus 0 0 0, ⟨{}, [], []⟩, rfl⟩

/-- C5: `process_image_task` rejects with `NotFoundException` (and
persists no task) unless the requested image exists and belongs to the
caller; the task it commits carries the caller's id and that image's id
(both columns `nullable=False`, hence non-optional here); and no later
event rewrites any task's `user_id` or `image_id`. -/
theorem C5_task_ownership (req : ProcessImageRequest) (user_id now : Nat) (db : DB)
    (s : SysState) (e : Event) :
    ((∀ i ∈ db.images, i.id = req.imageId → i.user_id ≠ user_id) →
       process_image_task req user_id now db = .error (.notFound "图片不存在", db)) ∧
    (∀ out db', process_image_task req user_id now db = .ok (out, db') →
       ∃ t, db'.tasks = db.tasks ++ [t] ∧ t.id = out.1.taskId ∧ t.user_id = user_id ∧
         ∃ i ∈ db.images, i.id = req.imageId ∧ i.user_id = user_id ∧ t.image_id = i.id) ∧
    (∀ t ∈ s.db.tasks, ∃ t' ∈ (step e s).1.db.tasks,
       t'.id = t.id ∧ t'.user_id = t.user_id ∧ t'.image_id = t.image_id) := by
  refine ⟨?_, ?_, fun t ht => step_task_fields s e t ht⟩
  · intro hno
    unfold process_image_task
    have hnone : db.images.find? (fun i => i.id == req.imageId && i.user_id == user_id) = none := by
      rw [List.find?_eq_none]
      intro i him hp
      simp only [Bool.and_eq_true, beq_iff_eq] at hp
      exact hno i him hp.1 hp.2
    rw [hnone]
  · intro out db' hok
    unfold process_image_task at hok
    cases hfi : db.images.find? (fun i => i.id == req.imageId && i.user_id == user_id) with
    | none => simp [hfi] at hok
    | some image =>
      have hmem : image ∈ db.images := List.mem_of_find?_eq_some hfi
      have hp := List.find?_some hfi
      simp only [Bool.and_eq_true, beq_iff_eq] at hp
      simp only [hfi, Except.ok.injEq, Prod.mk.injEq] at hok
      obtain ⟨rfl, hdb⟩ := hok
      exact ⟨_, by rw [← hdb], rfl, rfl, image, hmem, hp.1, hp.2, rfl⟩

/-- A successful `process_image_task` returns the fresh id it drew and
appends exactly one task row carrying that id. -/
theorem process_image_task_ok_shape (req : ProcessImageRequest) (user_id now : Nat)
    (db db' : DB) (out : ProcessTaskResponse × PendingCallback)
    (h : process_image_task req user_id now db = .ok (out, db')) :
    out.1.taskId = db.nextId ∧
    ∃ t, db'.tasks = db.tasks ++ [t] ∧ t.id = db.nextId ∧ db'.nextId = db.nextId + 1 := by
  unfold process_image_task at h
  cases hfi : db.images.find? (fun i => i.id == req.imageId && i.user_id == user_id) with
  | none => simp [hfi] at h
  | some image =>
    simp only [hfi, Except.ok.injEq, Prod.mk.injEq] at h
    obtain ⟨rfl, hdb⟩ := h
    exact ⟨rfl, _, by rw [← hdb], rfl, by rw [← hdb]⟩

/-- C7: each successful `process_image_task` appends exactly one task
row under a freshly generated id — no existing row is modified or
replaced — and two successive successful calls, even with the same
request and user, yield two rows with distinct ids. -/
theorem C7_fresh_task_ids (req req2 : ProcessImageRequest)
    (user_id user_id2 now now2 : Nat) (db : DB)
    (hfresh : ∀ t ∈ db.tasks, t.id < db.nextId) :
    (∀ out db', process_image_task req user_id now db = .ok (out, db') →
       ∃ t, db'.tasks = db.tasks ++ [t] ∧ t.id = out.1.taskId ∧
         (∀ t0 ∈ db.tasks, t0.id ≠ t.id)) ∧
    (∀ out db' out2 db'', process_image_task req user_id now db = .ok (out, db') →
       process_image_task req2 user_id2 now2 db' = .ok (out2, db'') →
       out.1.taskId ≠ out2.1.taskId ∧
       ∃ t t2, db''.tasks = (db.tasks ++ [t]) ++ [t2] ∧
         t.id = out.1.taskId ∧ t2.id = out2.1.taskId) := by
  constructor
  · intro out db' hok
    obtain ⟨hid, t, htasks, htid, _⟩ := process_image_task_ok_shape req user_id now db db' out hok
    refine ⟨t, htasks, by rw [hid, htid], ?_⟩
    intro t0 h0
    rw [htid]
    exact Nat.ne_of_lt (hfresh t0 h0)
  · intro out db' out2 db'' hok1 hok2
    obtain ⟨hid1, t, htasks1, htid1, hnext1⟩ :=
      process_image_task_ok_shape req user_id now db db' out hok1
    obtain ⟨hid2, t2, htasks2, htid2, hnext2⟩ :=
      process_image_task_ok_shape req2 user_id2 now2 db' db'' out2 hok2
    refine ⟨by rw [hid1, hid2, hnext1]; omega, t, t2, ?_, ?_, ?_⟩
    · rw [htasks2, htasks1]
    · rw [htid1, hid1]
    · rw [htid2, hid2]

/-- Witness for C7: two identical requests against the one-image
database yield the distinct task ids 2 and 3. -/
theorem C7_witness :
    (∀ out db', process_image_task reqEx 0 100 dbEx = .ok (out, db') →
       ∃ t, db'.tasks = dbEx.tasks ++ [t] ∧ t.id = out.1.taskId ∧
         (∀ t0 ∈ dbEx.tasks, t0.id ≠ t.id)) ∧
    (∀ out db' out2 db'', process_image_task reqEx 0 100 dbEx = .ok (out, db') →
       process_image_task reqEx 0 101 db' = .ok (out2, db'') →
       out.1.taskId ≠ out2.1.taskId ∧
       ∃ t t2, db''.tasks = (dbEx.tasks ++ [t]) ++ [t2] ∧
         t.id = out.1.taskId ∧ t2.id = out2.1.taskId) :=
  C7_fresh_task_ids reqEx reqEx 0 0 100 101 dbEx (by decide)

/-- C6: running the background callback on an existing task ends it
COMPLETED at progress 100 with `completed_at` set and `result_image_id`
pointing at a newly committed image — owned by the task's user and
carrying the result's `processed_url` — when the AI call returns a usable
result; an empty result or a raised exception ends it FAILED with a
non-null `error_message`. -/
theorem C6_execute_outcomes (task_id now : Nat) (db : DB) (t : ProcessTask)
    (r : AIResult) (msg : String)
    (ht : findTask? db task_id = some t)
    (hfresh : ∀ i ∈ db.images, i.id < db.nextId) :
    (∃ t', findTask? (execute_image_processing task_id (.success r) now db) task_id =
         some t' ∧
       t'.status = .completed ∧ t'.progress = 100 ∧ t'.completed_at = some now ∧
       t'.result_image_id = some db.nextId ∧
       (∀ i ∈ db.images, i.id ≠ db.nextId) ∧
       ∃ img ∈ (execute_image_processing task_id (.success r) now db).images,
         img.id = db.nextId ∧ img.user_id = t.user_id ∧ img.url = r.processed_url) ∧
    (∃ t', findTask? (execute_image_processing task_id .empty now db) task_id = some t' ∧
       t'.status = .failed ∧ t'.error_message = some "AI处理服务返回错误" ∧
       t'.completed_at = some now) ∧
    (∃ t', findTask? (execute_image_processing task_id (.failure msg) now db) task_id =
         some t' ∧
       t'.status = .failed ∧ t'.error_message = some msg ∧
       t'.completed_at = some now) := by
  have htid : t.id = task_id := by simpa using List.find?_some ht
  have hfind0 : db.tasks.find? (fun u => u.id == task_id) = some t := ht
  have h1 : execPhase1 task_id db =
      { db with tasks := updateTask task_id processingUpdate db.tasks } := by
    unfold execPhase1
    rw [ht]
  have hfind1 : (updateTask task_id processingUpdate db.tasks).find?
      (fun u => u.id == task_id) = some (processingUpdate t) := by
    rw [find?_id_updateTask task_id task_id processingUpdate (fun u => rfl) db.tasks, hfind0]
    simp [htid, processingUpdate]
  have hfindPhase1 : findTask?
      { db with tasks := updateTask task_id processingUpdate db.tasks } task_id =
      some (processingUpdate t) := hfind1
  have hfind2 : ∀ g : ProcessTask → ProcessTask, (∀ u, (g u).id = u.id) →
      (updateTask task_id g (updateTask task_id processingUpdate db.tasks)).find?
        (fun u => u.id == task_id) = some (g (processingUpdate t)) := by
    intro g hg
    rw [find?_id_updateTask task_id task_id g hg _, hfind1]
    simp [htid, processingUpdate]
  refine ⟨?_, ?_, ?_⟩
  · unfold execute_image_processing
    rw [h1]
    unfold execPhase2
    simp only [hfindPhase1]
    refine ⟨completedUpdate db.nextId now (processingUpdate t), ?_, rfl, rfl, rfl, rfl,
      fun i him => Nat.ne_of_lt (hfresh i him), ?_⟩
    · exact hfind2 (completedUpdate db.nextId now) (fun u => rfl)
    · exact ⟨_, List.mem_append_right _ (List.mem_singleton.mpr rfl), rfl, rfl, rfl⟩
  · unfold execute_image_processing
    rw [h1]
    unfold execPhase2
    simp only [hfindPhase1]
    exact ⟨failedUpdate "AI处理服务返回错误" now (processingUpdate t),
      hfind2 (failedUpdate "AI处理服务返回错误" now) (fun u => rfl), rfl, rfl, rfl⟩
  · unfold execute_image_processing
    rw [h1]
    unfold execPhase2
    simp only [hfindPhase1]
    exact ⟨failedUpdate msg now (processingUpdate t),
      hfind2 (failedUpdate msg now) (fun u => rfl), rfl, rfl, rfl⟩

/-- A pending task over `imageEx` as `process_image_task` commits it. -/
def taskEx : ProcessTask :=
  { id := 2, user_id := 0, image_id := 1
    operations := [{ type := .cutout }], created_at := 100 }

/-- `dbEx` with `taskEx` committed. -/
def dbTaskEx : DB :=
  { users := [{ id := 0 }], images := [imageEx], tasks := [taskEx], nextId := 3 }

/-- A usable AI-service result. -/
def aiResEx : AIResult := { processed_url := "https://ai.example/out.jpg" }

/-- Witness for C6: the callback on `taskEx` under each outcome. -/
theorem C6_witness :
    (∃ t', findTask? (execute_image_processing 2 (.success aiResEx) 105 dbTaskEx) 2 =
         some t' ∧
       t'.status = .completed ∧ t'.progress = 100 ∧ t'.completed_at = some 105 ∧
       t'.result_image_id = some dbTaskEx.nextId ∧
       (∀ i ∈ dbTaskEx.images, i.id ≠ dbTaskEx.nextId) ∧
       ∃ img ∈ (execute_image_processing 2 (.success aiResEx) 105 dbTaskEx).images,
         img.id = dbTaskEx.nextId ∧ img.user_id = taskEx.user_id ∧
         img.url = aiResEx.processed_url) ∧
    (∃ t', findTask? (execute_image_processing 2 .empty 105 dbTaskEx) 2 = some t' ∧
       t'.status = .failed ∧ t'.error_message = some "AI处理服务返回错误" ∧
       t'.completed_at = some 105) ∧
    (∃ t', findTask? (execute_image_processing 2 (.failure "boom") 105 dbTaskEx) 2 =
         some t' ∧
       t'.status = .failed ∧ t'.error_message = some "boom" ∧
       t'.completed_at = some 105) :=
  C6_execute_outcomes 2 105 dbTaskEx taskEx aiResEx "boom" (by decide) (by decide)

/-- C8 counterexample: after two `send-code` requests for the same
phone (mock mode always stores the same code), a login consumes only the
first matching row, so a *second* login with the same phone and code
succeeds — against the claim that it must raise `UnauthorizedException`. -/
theorem C8_counterexample_duplicate_codes :
    loginOk phoneEx "123456" 0 dbTwoCodes = true ∧
    loginOk phoneEx "123456" 0 (dbAfterLogin phoneEx "123456" 0 dbTwoCodes) = true := by
  decide

/-- C8 amended: a successful `verify_code` marks the (first) matching
row used before returning `True`; hence a second `login_with_phone` with
the same phone and code raises `UnauthorizedException` *provided the
marked row was the only row matching that phone and code, unused and
unexpired at the time of the second call* (duplicate rows arise from
repeated `send-code` requests, since old codes are never invalidated). -/
theorem C8_code_single_use (phone code : String) (now now2 : Nat) (db : DB)
    (v : VerificationCode)
    (hfind : findVerification? phone code now db.codes = some v)
    (huniq : ∀ w ∈ db.codes, w.phone_number = phone → w.code = code →
       w.used = false → now2 < w.expires_at → w.id = v.id) :
    (verify_code phone code now db).1 = true ∧
    (∃ w ∈ (verify_code phone code now db).2.codes, w.id = v.id ∧ w.used = true) ∧
    (∀ resp db', login_with_phone phone code now db = .ok (resp, db') →
       login_with_phone phone code now2 db' =
         .error (.unauthorized "验证码错误或已过期", db')) := by
  have hvmem : v ∈ db.codes := List.mem_of_find?_eq_some hfind
  have hnone2 : findVerification? phone code now2 (markUsed v.id db.codes) = none := by
    unfold findVerification?
    rw [List.find?_eq_none]
    intro w hw hp
    unfold markUsed at hw
    obtain ⟨w0, hw0, rfl⟩ := List.mem_map.mp hw
    by_cases hc : (w0.id == v.id) = true
    · rw [if_pos hc] at hp
      simp at hp
    · rw [if_neg hc] at hp
      simp only [Bool.and_eq_true, beq_iff_eq, decide_eq_true_eq] at hp
      obtain ⟨⟨⟨hp1, hp2⟩, hp3⟩, hp4⟩ := hp
      have := huniq w0 hw0 hp1 hp2 hp3 hp4
      simp [this] at hc
  refine ⟨?_, ?_, ?_⟩
  · unfold verify_code
    rw [hfind]
  · unfold verify_code
    rw [hfind]
    refine ⟨{ v with used := true }, ?_, rfl, rfl⟩
    have hv : { v with used := true } =
        (fun w => if w.id == v.id then { w with used := true } else w) v := by simp
    rw [hv]
    exact List.mem_map_of_mem _ hvmem
  · intro resp db' hok
    have hcodes : db'.codes = markUsed v.id db.codes := by
      simp only [login_with_phone, verify_code, hfind] at hok
      cases hu : List.find? (fun u => u.phone_number == some phone) db.users with
      | some user =>
        simp only [hu, Except.ok.injEq, Prod.mk.injEq] at hok
        rw [← hok.2]
      | none =>
        simp only [hu, Except.ok.injEq, Prod.mk.injEq] at hok
        rw [← hok.2]
    unfold login_with_phone verify_code
    have hnone' : findVerification? phone code now2 db'.codes = none := by
      rw [hcodes]
      exact hnone2
    rw [hnone']

/-- Witness for C8: over a database holding a single code row, the second
login attempt fails. -/
theorem C8_witness :
    (verify_code phoneEx "123456" 0 dbOneCode).1 = true ∧
    (∃ w ∈ (verify_code phoneEx "123456" 0 dbOneCode).2.codes,
       w.id = 2 ∧ w.used = true) ∧
    (∀ resp db', login_with_phone phoneEx "123456" 0 dbOneCode = .ok (resp, db') →
       login_with_phone phoneEx "123456" 250 db' =
         .error (.unauthorized "验证码错误或已过期", db')) :=
  C8_code_single_use phoneEx "123456" 0 250 dbOneCode
    ⟨2, phoneEx, "123456", 300, 0, false⟩ (by decide) (by decide)

/-- C9: `upload_images` rejects a batch of more than 100 files up
front, before anything is persisted; a disallowed content type is
rejected per file inside the loop, so when the k-th file is rejected the
first k−1 files' image rows stay committed. -/
theorem C9_upload_batch (files : List UploadFile) (user_id now : Nat) (db : DB) :
    (files.length > 100 →
       upload_images files user_id now db =
         .error (.badRequest "单次最多上传100张图片", db)) ∧
    (∀ pre f post, files = pre ++ f :: post → ¬ files.length > 100 →
       (∀ g ∈ pre, g.content_type ∈ allowedContentTypes) →
       f.content_type ∉ allowedContentTypes →
       ∃ db' new, upload_images files user_id now db =
           .error (.badRequest ("不支持的图片格式: " ++ f.content_type), db') ∧
         db'.images = db.images ++ new ∧ new.length = pre.length ∧
         ∀ i ∈ new, i.user_id = user_id) := by
  constructor
  · intro hlen
    unfold upload_images
    rw [if_pos hlen]
  · intro pre f post hsplit hlen hgood hbad
    obtain ⟨db1, new, h1, h2, h3, h4⟩ :=
      upload_loop_good_prefix user_id now pre (f :: post) db hgood
    have herr : upload_images_loop user_id now (f :: post) db1 =
        .error (.badRequest ("不支持的图片格式: " ++ f.content_type), db1) := by
      simp only [upload_images_loop]
      rw [if_pos (by simp [hbad])]
    refine ⟨db1, new, ?_, h1, h2, h3⟩
    unfold upload_images
    rw [if_neg hlen, hsplit]
    exact h4 _ _ herr

end Lumina
